import Mathlib

/-!
# TreeVuln decision-engine core: a shallow embedding in Lean 4

This file embeds the core evaluation engine of the TreeVuln repository
(`backend/app/engine/{formula,cvss,nodes,inference,batch}.py` and
`backend/app/schemas/tree.py`) and proves or refutes the specification
claims about it.

Python machine values that flow through the engine are modelled by the
`Value` type below.  Python `int` and `float` are both modelled by `ℚ`
(exact rationals): every numeric literal and every arithmetic operation the
claims exercise is exact in ℚ, and no claim depends on binary floating
point rounding.  Python `dict`s are modelled as insertion-ordered
association lists with Python's update semantics (re-inserting an existing
key keeps its position and replaces its value).  Exceptions are modelled
with `Except`.
-/

set_option maxHeartbeats 1000000

namespace TreeVuln

/-- A Python runtime value as it appears in records, node configs and
condition values: `None`, booleans, numbers (`int`/`float` merged into ℚ),
strings, and lists. -/
inductive Value where
  | none
  | bool (b : Bool)
  | num (q : ℚ)
  | str (s : String)
  | list (vs : List Value)
deriving Repr

/-- Python `==` on `Value`s: `None` equals only `None`; booleans compare
numerically with numbers (`True == 1`); strings by content; lists
elementwise. Cross-kind comparisons are `False`. -/
def pyEq : Value → Value → Bool
  | .none, .none => true
  | .bool a, .bool b => a == b
  | .bool a, .num q => (if a then (1 : ℚ) else 0) == q
  | .num q, .bool b => q == (if b then (1 : ℚ) else 0)
  | .num a, .num b => a == b
  | .str a, .str b => a == b
  | .list a, .list b => pyEqList a b
  | _, _ => false
where
  pyEqList : List Value → List Value → Bool
  | [], [] => true
  | a :: as, b :: bs => pyEq a b && pyEqList as bs
  | _, _ => false

instance : BEq Value := ⟨pyEq⟩

/-- Python truthiness: `None`, `False`, `0`, `""` and `[]` are falsy. -/
def truthy : Value → Bool
  | .none => false
  | .bool b => b
  | .num q => q != 0
  | .str s => s ≠ ""
  | .list vs => !vs.isEmpty

/-- Decimal rendering of an integer, as Python's `str` would produce it. -/
def intToDecimal (n : ℤ) : String :=
  toString n

/-- Python `str()` of a value.  Claims only ever inspect `str` of strings,
integers and `None`/booleans; non-integral rationals are rendered as
`num/den` which no claim exercises. -/
def pyStr : Value → String
  | .none => "None"
  | .bool b => if b then "True" else "False"
  | .num q => if q.den = 1 then intToDecimal q.num else toString q
  | .str s => s
  | .list _ => "[...]"

/-- Parse a decimal digit. -/
def digitVal (c : Char) : Option ℕ :=
  if '0' ≤ c ∧ c ≤ '9' then some (c.toNat - '0'.toNat) else none

/-- Parse a non-empty string of decimal digits. -/
def parseDigits : List Char → Option ℕ
  | [] => Option.none
  | cs => cs.foldlM (fun acc c => (digitVal c).map (fun d => acc * 10 + d)) 0

/-- Model of Python's `float(string)` builtin: optional sign, then either
`digits`, `digits.digits`, `.digits` or `digits.`, with an optional decimal
exponent.  (Python additionally accepts surrounding whitespace,
underscores and `inf`/`nan`; no claim exercises those.)  Returns `none`
when the string is not numeric-looking (Python raises `ValueError`). -/
def strToFloat? (s : String) : Option ℚ :=
  let cs := s.data
  let (sign, rest) :=
    match cs with
    | '-' :: r => ((-1 : ℚ), r)
    | '+' :: r => ((1 : ℚ), r)
    | r => ((1 : ℚ), r)
  let (mantissa, rest) := rest.span (fun c => c ≠ '.' ∧ c ≠ 'e' ∧ c ≠ 'E')
  let (frac, expPart) :=
    match rest with
    | '.' :: r =>
      let (f, e) := r.span (fun c => c ≠ 'e' ∧ c ≠ 'E')
      (some f, e)
    | r => (Option.none, r)
  let expVal : Option ℤ :=
    match expPart with
    | [] => some 0
    | 'e' :: r | 'E' :: r =>
      match r with
      | '-' :: d => (parseDigits d).map (fun n => -(n : ℤ))
      | '+' :: d => (parseDigits d).map (fun n => (n : ℤ))
      | d => (parseDigits d).map (fun n => (n : ℤ))
    | _ => Option.none
  match frac with
  | Option.none =>
    match parseDigits mantissa, expVal with
    | some m, some e => some (sign * (m : ℚ) * (10 : ℚ) ^ e)
    | _, _ => Option.none
  | some f =>
    -- at least one digit must be present on one side of the point
    if mantissa = [] ∧ f = [] then Option.none
    else
      let mv : Option ℕ := if mantissa = [] then some 0 else parseDigits mantissa
      let fv : Option ℕ := if f = [] then some 0 else parseDigits f
      match mv, fv, expVal with
      | some m, some fr, some e =>
        some (sign * ((m : ℚ) + (fr : ℚ) / (10 : ℚ) ^ f.length) * (10 : ℚ) ^ e)
      | _, _, _ => Option.none

/-- Errors that node evaluation can raise.  `nodeEval` models
`NodeEvaluationError` (caught by the inference engine); the others model
ordinary Python exceptions (`ValueError`, `TypeError`, `IndexError`) that
nothing in the engine catches. -/
inductive PyErr where
  | nodeEval (msg : String)
  | valueError (msg : String)
  | typeError (msg : String)
  | indexError (msg : String)
deriving Repr, DecidableEq

/-- Model of Python's `float(value)` applied to a runtime value, as used by
the ordering operators of `_evaluate_simple` (nodes.py lines 151-158):
booleans coerce to 1/0, numbers pass through, numeric-looking strings
parse, anything else raises. -/
def pyFloat : Value → Except PyErr ℚ
  | .bool b => .ok (if b then 1 else 0)
  | .num q => .ok q
  | .str s =>
    match strToFloat? s with
    | some q => .ok q
    | Option.none => .error (.valueError s!"could not convert string to float: {s}")
  | .none => .error (.typeError "float() argument must be a string or a real number, not NoneType")
  | .list _ => .error (.typeError "float() argument must be a string or a real number, not list")

/-- Insertion-ordered dictionary lookup (`dict.get`): first binding wins
(a Python dict never holds a key twice; `pyDictInsert` maintains that). -/
def pyGet (d : List (String × Value)) (k : String) : Value :=
  match d.find? (fun p => p.1 == k) with
  | some p => p.2
  | Option.none => .none

/-- Generic assoc-list lookup returning an `Option`. -/
def alGet {α : Type} (d : List (String × α)) (k : String) : Option α :=
  (d.find? (fun p => p.1 == k)).map (·.2)

/-- Python dict insertion: updating an existing key keeps its position and
replaces its value; a new key is appended. -/
def alInsert {α : Type} (d : List (String × α)) (k : String) (v : α) : List (String × α) :=
  match d with
  | [] => [(k, v)]
  | (k', v') :: rest =>
    if k' == k then (k', v) :: rest else (k', v') :: alInsert rest k v

/-! ## CVSS decoder (`backend/app/engine/cvss.py`)

Strings are manipulated through their character lists so that every string
operation (`upper`, `strip`, `startswith`, `replace`, `split`) is a
structurally-recursive Lean function the kernel can evaluate. -/

/-- Python's default `str.strip` whitespace set. -/
def isSpaceChar (c : Char) : Bool :=
  c = ' ' ∨ c = '\t' ∨ c = '\n' ∨ c = '\r' ∨ c = '\x0b' ∨ c = '\x0c'

/-- `str.upper()` (ASCII; CVSS vectors are ASCII). -/
def upperL (cs : List Char) : List Char := cs.map Char.toUpper

/-- `str.strip()` from the right. -/
def rstripL (cs : List Char) : List Char :=
  (cs.reverse.dropWhile isSpaceChar).reverse

/-- `str.strip()`. -/
def stripL (cs : List Char) : List Char :=
  rstripL (cs.dropWhile isSpaceChar)

/-- `str.startswith(pat)`. -/
def pyStartsWith : List Char → List Char → Bool
  | [], _ => true
  | _ :: _, [] => false
  | p :: ps, c :: cs => p == c && pyStartsWith ps cs

/-- Worker for `replaceAllL`, fuelled so that it is structurally recursive
(the fuel is the length of the subject string; each step consumes at least
one character). -/
def replaceAllAux (pat : List Char) : ℕ → List Char → List Char
  | _, [] => []
  | 0, s => s
  | n + 1, c :: cs =>
    if pyStartsWith pat (c :: cs) then
      replaceAllAux pat n (List.drop (pat.length - 1) cs)
    else
      c :: replaceAllAux pat n cs

/-- `str.replace(pat, "")` for a non-empty pattern: removes every
non-overlapping occurrence, scanning left to right. -/
def replaceAllL (pat s : List Char) : List Char :=
  replaceAllAux pat s.length s

/-- `str.split("/")`: splits on every slash, keeping empty segments. -/
def splitOnSlash : List Char → List (List Char)
  | [] => [[]]
  | c :: cs =>
    if c = '/' then [] :: splitOnSlash cs
    else
      match splitOnSlash cs with
      | [] => [[c]]
      | g :: gs => (c :: g) :: gs

/-- `part.split(":", 1)` when the part contains a colon: the text before
the first colon and everything after it.  `none` when no colon occurs
(the parser skips such parts). -/
def splitFirstColon : List Char → Option (List Char × List Char)
  | [] => Option.none
  | c :: cs =>
    if c = ':' then some ([], cs)
    else (splitFirstColon cs).map (fun p => (c :: p.1, p.2))

/-- One CVSS metric table row: abbreviation ↦ (derived field name, human
label, code ↦ readable value map). -/
structure CvssMetric where
  abbr : String
  fieldName : String
  label : String
  valueMap : List (String × String)

/-- `CVSS_31_METRICS` (cvss.py lines 11-52). -/
def cvss31Metrics : List CvssMetric :=
  [⟨"AV", "cvss_av", "Attack Vector",
      [("N", "Network"), ("A", "Adjacent"), ("L", "Local"), ("P", "Physical")]⟩,
   ⟨"AC", "cvss_ac", "Attack Complexity", [("L", "Low"), ("H", "High")]⟩,
   ⟨"PR", "cvss_pr", "Privileges Required", [("N", "None"), ("L", "Low"), ("H", "High")]⟩,
   ⟨"UI", "cvss_ui", "User Interaction", [("N", "None"), ("R", "Required")]⟩,
   ⟨"S", "cvss_s", "Scope", [("U", "Unchanged"), ("C", "Changed")]⟩,
   ⟨"C", "cvss_c", "Confidentiality Impact", [("N", "None"), ("L", "Low"), ("H", "High")]⟩,
   ⟨"I", "cvss_i", "Integrity Impact", [("N", "None"), ("L", "Low"), ("H", "High")]⟩,
   ⟨"A", "cvss_a", "Availability Impact", [("N", "None"), ("L", "Low"), ("H", "High")]⟩]

/-- `CVSS_40_METRICS` (cvss.py lines 55-114). -/
def cvss40Metrics : List CvssMetric :=
  [⟨"AV", "cvss_av", "Attack Vector",
      [("N", "Network"), ("A", "Adjacent"), ("L", "Local"), ("P", "Physical")]⟩,
   ⟨"AC", "cvss_ac", "Attack Complexity", [("L", "Low"), ("H", "High")]⟩,
   ⟨"AT", "cvss_at", "Attack Requirements", [("N", "None"), ("P", "Present")]⟩,
   ⟨"PR", "cvss_pr", "Privileges Required", [("N", "None"), ("L", "Low"), ("H", "High")]⟩,
   ⟨"UI", "cvss_ui", "User Interaction", [("N", "None"), ("P", "Passive"), ("A", "Active")]⟩,
   ⟨"VC", "cvss_vc", "Vulnerable System Confidentiality",
      [("N", "None"), ("L", "Low"), ("H", "High")]⟩,
   ⟨"VI", "cvss_vi", "Vulnerable System Integrity",
      [("N", "None"), ("L", "Low"), ("H", "High")]⟩,
   ⟨"VA", "cvss_va", "Vulnerable System Availability",
      [("N", "None"), ("L", "Low"), ("H", "High")]⟩,
   ⟨"SC", "cvss_sc", "Subsequent System Confidentiality",
      [("N", "None"), ("L", "Low"), ("H", "High")]⟩,
   ⟨"SI", "cvss_si", "Subsequent System Integrity",
      [("N", "None"), ("L", "Low"), ("H", "High")]⟩,
   ⟨"SA", "cvss_sa", "Subsequent System Availability",
      [("N", "None"), ("L", "Low"), ("H", "High")]⟩]

/-- Lookup of a metric row by abbreviation (`abbrev in metrics_map`). -/
def metricLookup (table : List CvssMetric) (ab : String) : Option CvssMetric :=
  table.find? (fun m => m.abbr == ab)

/-- `detect_cvss_version` (cvss.py lines 117-139): empty string → `None`
(the `isinstance` guard cannot fire in this model, where the input is
always a string); otherwise prefix dispatch on the uppercased, stripped
vector, with `CVSS:3.0/` mapped to version `"3.1"`. -/
def detectCvssVersionL (vector : List Char) : Option String :=
  if vector = [] then Option.none
  else
    let vu := stripL (upperL vector)
    if pyStartsWith "CVSS:4.0/".data vu then some "4.0"
    else if pyStartsWith "CVSS:3.1/".data vu then some "3.1"
    else if pyStartsWith "CVSS:3.0/".data vu then some "3.1"
    else Option.none

/-- `parse_cvss_vector` (cvss.py lines 142-191) on the character list of
the vector.  The result is the insertion-ordered dict mapping derived
field names to readable values. -/
def parseCvssVectorL (vector : List Char) : List (String × String) :=
  match detectCvssVersionL vector with
  | Option.none => []
  | some version =>
    let metricsMap := if version = "4.0" then cvss40Metrics else cvss31Metrics
    let vu := stripL (upperL vector)
    let parts :=
      if version = "4.0" then
        splitOnSlash (replaceAllL "CVSS:4.0/".data vu)
      else
        splitOnSlash (replaceAllL "CVSS:3.0/".data (replaceAllL "CVSS:3.1/".data vu))
    parts.foldl
      (fun result part =>
        match splitFirstColon part with
        | Option.none => result
        | some (a, v) =>
          let ab := String.mk (stripL a)
          let value := String.mk (stripL v)
          match metricLookup metricsMap ab with
          | Option.none => result
          | some metric =>
            let readable :=
              match alGet metric.valueMap value with
              | some rv => rv
              | Option.none => value
            alInsert result metric.fieldName readable)
      []

/-- `parse_cvss_vector` on a `String`. -/
def parseCvssVector (vector : String) : List (String × String) :=
  parseCvssVectorL vector.data

/-- All derived CVSS field names of both metric tables, as collected by
`is_cvss_field` (cvss.py lines 254-259). -/
def allCvssFields : List String :=
  cvss31Metrics.map (·.fieldName) ++ cvss40Metrics.map (·.fieldName)

/-- `is_cvss_field` (cvss.py lines 237-261). -/
def isCvssField (fieldName : String) : Bool :=
  if fieldName = "cvss_score" ∨ fieldName = "cvss_vector" then false
  else if ¬ fieldName.startsWith "cvss_" then false
  else allCvssFields.contains fieldName

/-! ## Formula sandbox (`backend/app/engine/formula.py`)

The sandbox parses a formula with Python's `ast` module and walks the
resulting expression tree.  The tree is embedded below; the parser itself
(Python's) and the regex ternary preprocessing are outside the embedding —
theorems about concrete formulas state the parsed tree of the preprocessed
formula explicitly. -/

/-- An `ast.Constant` payload.  `other` stands for the constant kinds the
validator rejects wholesale (bytes, ellipsis, …). -/
inductive PyConst where
  | num (q : ℚ)
  | bool (b : Bool)
  | str (s : String)
  | noneLit
  | other (kind : String)
deriving Repr, DecidableEq

/-- `ast.unaryop` kinds. -/
inductive PyUnaryOp where
  | uadd | usub | notOp | invert
deriving Repr, DecidableEq

/-- `ast.operator` kinds (binary operators). -/
inductive PyBinOp where
  | add | sub | mult | div | pow | mod | floorDiv
  | bitOr | bitAnd | bitXor | lshift | rshift | matMult
deriving Repr, DecidableEq

/-- `ast.cmpop` kinds. -/
inductive PyCmpOp where
  | lt | ltE | gt | gtE | eq | notEq | isOp | isNot | inOp | notIn
deriving Repr, DecidableEq

/-- `ast.boolop` kinds. -/
inductive PyBoolOp where
  | andOp | orOp
deriving Repr, DecidableEq

mutual
/-- A Python expression tree as produced by `ast.parse(mode="eval")`.
`attribute` and `subscript` are kept as distinct constructors because the
claims name them; every other non-whitelisted expression kind (lambda,
dict/list/set displays, starred, f-strings, …) is `other`.  For `call`,
only the presence of keyword arguments matters to the validator (it
rejects any non-empty keyword list without inspecting it), so keywords are
modelled by a flag. -/
inductive PyExpr where
  | constant (v : PyConst)
  | name (id : String)
  | unaryOp (op : PyUnaryOp) (operand : PyExpr)
  | binOp (left : PyExpr) (op : PyBinOp) (right : PyExpr)
  | compare (left : PyExpr) (ops : List PyCmpOp) (comparators : PyExprList)
  | boolOp (op : PyBoolOp) (values : PyExprList)
  | ifExp (test : PyExpr) (body : PyExpr) (orelse : PyExpr)
  | call (func : PyExpr) (args : PyExprList) (hasKeywords : Bool)
  | attribute (value : PyExpr) (attr : String)
  | subscript (value : PyExpr) (index : PyExpr)
  | other (kind : String)
deriving Repr

/-- A list of expressions (comparators, boolop values, call arguments). -/
inductive PyExprList where
  | nil
  | cons (e : PyExpr) (es : PyExprList)
deriving Repr
end

/-- `_ALLOWED_FUNCTIONS` (formula.py line 22). -/
def allowedFunctions : List String := ["min", "max", "abs", "round"]

/-- The comparison operators `_validate_node` accepts (formula.py
line 103). -/
def allowedCmpOp : PyCmpOp → Bool
  | .lt | .ltE | .gt | .gtE | .eq | .notEq => true
  | _ => false

/-- The unary operators `_validate_node` accepts (formula.py line 87). -/
def allowedUnaryOp : PyUnaryOp → Bool
  | .uadd | .usub | .notOp => true
  | _ => false

/-- The binary operators `_validate_node` accepts (formula.py line 94). -/
def allowedBinOp : PyBinOp → Bool
  | .add | .sub | .mult | .div | .pow | .mod | .floorDiv => true
  | _ => false

mutual
/-- `_validate_node` (formula.py lines 73-150): the whitelist walk.
Raising `FormulaError` is modelled as `.error msg`. -/
def validateNode : PyExpr → Except String Unit
  | .constant v =>
    match v with
    | .num _ => .ok ()
    | .bool _ => .ok ()
    | .str _ => .error "Type de littéral non autorisé : str"
    | .noneLit => .error "Type de littéral non autorisé : NoneType"
    | .other kind => .error s!"Type de littéral non autorisé : {kind}"
  | .name _ => .ok ()
  | .unaryOp op operand =>
    if allowedUnaryOp op then validateNode operand
    else .error "Opérateur unaire non autorisé"
  | .binOp left op right =>
    if allowedBinOp op then
      match validateNode left with
      | .error m => .error m
      | .ok () => validateNode right
    else .error "Opérateur binaire non autorisé"
  | .compare left ops comparators =>
    if ops.all allowedCmpOp then
      match validateNode left with
      | .error m => .error m
      | .ok () => validateList comparators
    else .error "Opérateur de comparaison non autorisé"
  | .boolOp _ values => validateList values
  | .ifExp test body orelse =>
    match validateNode test with
    | .error m => .error m
    | .ok () =>
      match validateNode body with
      | .error m => .error m
      | .ok () => validateNode orelse
  | .call func args hasKeywords =>
    match func with
    | .name id =>
      if allowedFunctions.contains id then
        if hasKeywords then .error "Les arguments nommés ne sont pas autorisés dans les fonctions"
        else validateList args
      else .error s!"Fonction '{id}' non autorisée. Fonctions disponibles : abs, max, min, round"
    | _ => .error "Seuls les appels de fonctions simples sont autorisés"
  | .attribute _ _ => .error "Construction non autorisée dans la formule : Attribute."
  | .subscript _ _ => .error "Construction non autorisée dans la formule : Subscript."
  | .other kind => .error s!"Construction non autorisée dans la formule : {kind}."

/-- Validation of an expression list, first error wins. -/
def validateList : PyExprList → Except String Unit
  | .nil => .ok ()
  | .cons e es =>
    match validateNode e with
    | .error m => .error m
    | .ok () => validateList es
end

mutual
/-- The whitelist exactly as the specification claim words it: numeric and
boolean literals, variable names, unary `+ - not`, binary
`+ - * / % ** //`, (standard) comparisons, boolean `and`/`or`, the
conditional expression, and calls to exactly `min`, `max`, `abs`, `round`
with positional arguments only.  This is the spec-side definition the
source-side `validateNode` is compared against. -/
def allowedBySpec : PyExpr → Bool
  | .constant (.num _) => true
  | .constant (.bool _) => true
  | .constant _ => false
  | .name _ => true
  | .unaryOp op operand => allowedUnaryOp op && allowedBySpec operand
  | .binOp left op right => allowedBinOp op && allowedBySpec left && allowedBySpec right
  | .compare left ops comparators =>
    ops.all allowedCmpOp && allowedBySpec left && allowedListBySpec comparators
  | .boolOp _ values => allowedListBySpec values
  | .ifExp test body orelse =>
    allowedBySpec test && allowedBySpec body && allowedBySpec orelse
  | .call (.name id) args hasKeywords =>
    allowedFunctions.contains id && !hasKeywords && allowedListBySpec args
  | .call _ _ _ => false
  | .attribute _ _ => false
  | .subscript _ _ => false
  | .other _ => false

/-- Spec-side whitelist for expression lists. -/
def allowedListBySpec : PyExprList → Bool
  | .nil => true
  | .cons e es => allowedBySpec e && allowedListBySpec es
end

/-- A value produced while evaluating a validated formula: numbers
(`int`/`float` merged into ℚ), booleans, or one of the four builtin
function objects (reachable when a bare `min`/`max`/`abs`/`round` name is
used as a value). -/
inductive FVal where
  | num (q : ℚ)
  | bool (b : Bool)
  | builtin (id : String)
deriving Repr, DecidableEq

/-- A fault raised while evaluating a validated formula; all of these are
caught by `evaluate_formula` (lines 290-295) and re-raised as
`FormulaError`.  `unsupported` marks the one modelling gap: `a ** b` with
a non-integral exponent produces an irrational float in Python, which ℚ
cannot represent; no claim exercises it. -/
inductive EvalFault where
  | zeroDiv
  | typeErr (msg : String)
  | nameErr (msg : String)
  | unsupported (msg : String)
deriving Repr, DecidableEq

/-- Truthiness of a formula value. -/
def fvTruthy : FVal → Bool
  | .num q => q != 0
  | .bool b => b
  | .builtin _ => true

/-- Numeric coercion inside arithmetic/comparisons: booleans are ints in
Python; a function object raises `TypeError`. -/
def fvToNum : FVal → Except EvalFault ℚ
  | .num q => .ok q
  | .bool b => .ok (if b then 1 else 0)
  | .builtin id => .error (.typeErr s!"unsupported operand type: builtin function {id}")

/-- Python `==` between formula values. -/
def fvEq : FVal → FVal → Bool
  | .num a, .num b => a == b
  | .num a, .bool b => a == (if b then 1 else 0)
  | .bool a, .num b => (if a then (1 : ℚ) else 0) == b
  | .bool a, .bool b => a == b
  | .builtin a, .builtin b => a == b
  | _, _ => false

/-- Round-half-to-even on ℚ, Python's `round` tie-breaking. -/
def roundHalfEven (q : ℚ) : ℤ :=
  let f := ⌊q⌋
  let r := q - f
  if r < 1/2 then f
  else if 1/2 < r then f + 1
  else if f % 2 = 0 then f else f + 1

/-- Python binary arithmetic on formula values.  `**` is exact only for
integral exponents (see `EvalFault.unsupported`). -/
def applyBinOp (op : PyBinOp) (a b : FVal) : Except EvalFault FVal := do
  let x ← fvToNum a
  let y ← fvToNum b
  match op with
  | .add => pure (.num (x + y))
  | .sub => pure (.num (x - y))
  | .mult => pure (.num (x * y))
  | .div => if y = 0 then .error .zeroDiv else pure (.num (x / y))
  | .mod => if y = 0 then .error .zeroDiv else pure (.num (x - y * ⌊x / y⌋))
  | .floorDiv => if y = 0 then .error .zeroDiv else pure (.num (⌊x / y⌋ : ℚ))
  | .pow =>
    if y.den = 1 then
      if x = 0 ∧ y.num < 0 then .error .zeroDiv
      else pure (.num (x ^ y.num))
    else .error (.unsupported "non-integral exponent")
  | _ => .error (.typeErr "unsupported binary operator")

/-- Python comparison on formula values (only reachable for the six
whitelisted comparison operators after validation). -/
def applyCmpOp (op : PyCmpOp) (a b : FVal) : Except EvalFault Bool :=
  match op with
  | .eq => .ok (fvEq a b)
  | .notEq => .ok (!fvEq a b)
  | .lt => do pure ((← fvToNum a) < (← fvToNum b))
  | .ltE => do pure ((← fvToNum a) ≤ (← fvToNum b))
  | .gt => do pure ((← fvToNum b) < (← fvToNum a))
  | .gtE => do pure ((← fvToNum b) ≤ (← fvToNum a))
  | _ => .error (.unsupported "comparison operator rejected by validation")

/-- Python `min`/`max` over already-evaluated arguments: numeric
comparison, the first extremal argument object is returned. -/
def foldExtremum (isMin : Bool) (first : FVal) (rest : List FVal) : Except EvalFault FVal :=
  match rest with
  | [] => .ok first
  | v :: vs => do
    let x ← fvToNum first
    let y ← fvToNum v
    let keep := if isMin then x ≤ y else y ≤ x
    foldExtremum isMin (if keep then first else v) vs

/-- Dispatch of the four whitelisted builtins over evaluated positional
arguments, mirroring CPython's arity and type behaviour. -/
def applyBuiltin (id : String) (args : List FVal) : Except EvalFault FVal :=
  if id = "abs" then
    match args with
    | [v] => do pure (.num |← fvToNum v|)
    | _ => .error (.typeErr "abs() takes exactly one argument")
  else if id = "round" then
    match args with
    | [v] => do pure (.num ((roundHalfEven (← fvToNum v) : ℤ) : ℚ))
    | [v, d] => do
      let x ← fvToNum v
      let nd ← fvToNum d
      if nd.den = 1 then
        pure (.num ((roundHalfEven (x * (10 : ℚ) ^ nd.num) : ℤ) / (10 : ℚ) ^ nd.num))
      else .error (.typeErr "ndigits must be an integer")
    | _ => .error (.typeErr "round() takes at most 2 arguments")
  else if id = "min" ∨ id = "max" then
    match args with
    | [] => .error (.typeErr "expected at least 1 argument, got 0")
    | [_] => .error (.typeErr "object is not iterable")
    | v :: vs => foldExtremum (id = "min") v vs
  else .error (.nameErr s!"name '{id}' is not defined")

mutual
/-- Evaluation of a validated formula expression under `safe_vars` (the
coerced variable environment) and `safe_globals` (the four builtins),
modelling CPython `eval` on the compiled tree (formula.py line 291).
Local variables shadow the builtins. -/
def evalExpr (vars : List (String × ℚ)) : PyExpr → Except EvalFault FVal
  | .constant c =>
    match c with
    | .num q => .ok (.num q)
    | .bool b => .ok (.bool b)
    | .str _ => .error (.unsupported "string constant rejected by validation")
    | .noneLit => .error (.unsupported "None constant rejected by validation")
    | .other k => .error (.unsupported k)
  | .name id =>
    match alGet vars id with
    | some q => .ok (.num q)
    | Option.none =>
      if allowedFunctions.contains id then .ok (.builtin id)
      else .error (.nameErr s!"name '{id}' is not defined")
  | .unaryOp op operand => do
    let v ← evalExpr vars operand
    match op with
    | .uadd => do pure (.num (← fvToNum v))
    | .usub => do pure (.num (-(← fvToNum v)))
    | .notOp => pure (.bool (!fvTruthy v))
    | .invert => do
      let q ← fvToNum v
      if q.den = 1 then pure (.num (-(q.num + 1) : ℤ)) else .error (.typeErr "bad operand type for unary ~")
  | .binOp left op right => do
    let a ← evalExpr vars left
    let b ← evalExpr vars right
    applyBinOp op a b
  | .compare left ops comparators => do
    let v ← evalExpr vars left
    evalCmpChain vars v ops comparators
  | .boolOp op values =>
    match values with
    | .nil => .error (.unsupported "empty BoolOp")
    | .cons e rest => do
      let v ← evalExpr vars e
      evalBoolChain vars op v rest
  | .ifExp test body orelse => do
    let t ← evalExpr vars test
    if fvTruthy t then evalExpr vars body else evalExpr vars orelse
  | .call func args _ =>
    match func with
    | .name id =>
      match alGet vars id with
      | some _ => .error (.typeErr "'float' object is not callable")
      | Option.none => do
        let vs ← evalArgs vars args
        applyBuiltin id vs
    | _ => .error (.unsupported "non-name call rejected by validation")
  | .attribute _ _ => .error (.unsupported "Attribute rejected by validation")
  | .subscript _ _ => .error (.unsupported "Subscript rejected by validation")
  | .other k => .error (.unsupported k)

/-- Python comparison chaining (`a < b < c`), short-circuiting: as soon
as one link is false the remaining comparators are not evaluated. -/
def evalCmpChain (vars : List (String × ℚ)) (left : FVal) :
    List PyCmpOp → PyExprList → Except EvalFault FVal
  | [], .nil => .ok (.bool true)
  | op :: ops, .cons e rest => do
    let right ← evalExpr vars e
    let r ← applyCmpOp op left right
    if r then evalCmpChain vars right ops rest
    else .ok (.bool false)
  | _, _ => .error (.unsupported "malformed comparison")

/-- Python `and`/`or` chaining: returns the deciding operand's value. -/
def evalBoolChain (vars : List (String × ℚ)) (op : PyBoolOp) (acc : FVal) :
    PyExprList → Except EvalFault FVal
  | .nil => .ok acc
  | .cons e rest =>
    match op with
    | .andOp =>
      if fvTruthy acc then do
        let v ← evalExpr vars e
        evalBoolChain vars op v rest
      else .ok acc
    | .orOp =>
      if fvTruthy acc then .ok acc
      else do
        let v ← evalExpr vars e
        evalBoolChain vars op v rest

/-- Left-to-right evaluation of call arguments. -/
def evalArgs (vars : List (String × ℚ)) : PyExprList → Except EvalFault (List FVal)
  | .nil => .ok []
  | .cons e rest => do
    let v ← evalExpr vars e
    let vs ← evalArgs vars rest
    pure (v :: vs)
end

/-- Coercion of one supplied variable (formula.py lines 257-277):
`None` raises, booleans map to 1.0/0.0, numbers to float, numeric-looking
strings parse, anything else raises. -/
def coerceVar (name : String) (v : Value) : Except String ℚ :=
  match v with
  | .none =>
    .error s!"La variable '{name}' est None. Toutes les variables doivent avoir une valeur pour évaluer la formule."
  | .bool b => .ok (if b then 1 else 0)
  | .num q => .ok q
  | .str s =>
    match strToFloat? s with
    | some q => .ok q
    | Option.none =>
      .error s!"La variable '{name}' a la valeur '{s}' qui ne peut pas être convertie en nombre"
  | .list _ => .error s!"La variable '{name}' a un type non supporté : list"

/-- The coercion loop over `variables.items()`, first failure wins. -/
def coerceVars : List (String × Value) → Except String (List (String × ℚ))
  | [] => .ok []
  | (n, v) :: rest =>
    match coerceVar n v with
    | .error m => .error m
    | .ok q =>
      match coerceVars rest with
      | .error m => .error m
      | .ok tl => .ok ((n, q) :: tl)

/-- Rendering of an evaluation fault, standing in for Python's exception
message interpolated into `f"Erreur d'évaluation : {e}"`. -/
def faultMsg : EvalFault → String
  | .zeroDiv => "division by zero"
  | .typeErr m => m
  | .nameErr m => m
  | .unsupported m => m

/-- `evaluate_formula` (formula.py lines 229-303) from the parsed
expression tree onward: validate, coerce the variables, evaluate under the
restricted environment, catch `ZeroDivisionError` and every other runtime
fault as a `FormulaError` (modelled as `.error msg`), and coerce the
result to a float with booleans mapped to 1.0/0.0. -/
def evaluateFormulaAst (e : PyExpr) (varList : List (String × Value)) :
    Except String ℚ :=
  match validateNode e with
  | .error m => .error m
  | .ok () =>
    match coerceVars varList with
    | .error m => .error m
    | .ok safeVars =>
      match evalExpr safeVars e with
      | .error .zeroDiv => .error "Division par zéro dans la formule"
      | .error f => .error s!"Erreur d'évaluation : {faultMsg f}"
      | .ok (.bool b) => .ok (if b then 1 else 0)
      | .ok (.num q) => .ok q
      | .ok (.builtin id) =>
        .error s!"Le résultat de la formule n'est pas un nombre : builtin function {id}"

/-! ## Tree schema (`backend/app/schemas/tree.py`) -/

/-- `NodeType` (tree.py lines 8-13).  The enum declares exactly three
members: `input`, `lookup`, `output`.  (`nodes.py` line 437 and
`tree_validation.py` line 89 refer to a fourth member `EQUATION` that this
enum does not define — see claim C6.) -/
inductive NodeType where
  | input
  | lookup
  | output
deriving Repr, DecidableEq

/-- The string payload of each enum member (`NodeType` is a `str` enum). -/
def NodeType.value : NodeType → String
  | .input => "input"
  | .lookup => "lookup"
  | .output => "output"

instance : Fintype NodeType :=
  ⟨⟨{NodeType.input, NodeType.lookup, NodeType.output}, by decide⟩, by
    intro t; cases t <;> decide⟩

/-- `ConditionOperator` (tree.py lines 16-31). -/
inductive ConditionOperator where
  | eq | neq | gt | gte | lt | lte
  | contains | notContains | regex
  | inOp | notIn | isNull | isNotNull
deriving Repr, DecidableEq

/-- `SimpleConditionCriteria` (tree.py lines 34-45). -/
structure SimpleConditionCriteria where
  field : Option String
  operator : ConditionOperator
  value : Value
deriving Repr

/-- The `logic` literal of a compound condition (`"AND" | "OR"`). -/
inductive LogicOp where
  | andL
  | orL
deriving Repr, DecidableEq

/-- `NodeCondition` (tree.py lines 48-103): label plus either simple mode
(`operator`/`value`) or compound mode (`logic`/`criteria`). -/
structure NodeCondition where
  label : String
  operator : Option ConditionOperator := Option.none
  value : Value := .none
  logic : Option LogicOp := Option.none
  criteria : Option (List SimpleConditionCriteria) := Option.none
deriving Repr

/-- `NodeSchema` (tree.py lines 106-136); the canvas `position` is UI-only
and never read by the engine, so it is omitted. -/
structure NodeSchema where
  id : String
  type : NodeType
  label : String
  config : List (String × Value) := []
  conditions : List NodeCondition := []
deriving Repr

/-- `EdgeSchema` (tree.py lines 139-155). -/
structure EdgeSchema where
  id : String
  source : String
  target : String
  sourceHandle : Option String := Option.none
  targetHandle : Option String := Option.none
  label : Option String := Option.none
deriving Repr

/-- `TreeStructure` (tree.py lines 158-166); `metadata` is opaque and
unread by the engine. -/
structure TreeStructure where
  nodes : List NodeSchema := []
  edges : List EdgeSchema := []
deriving Repr

/-- Modelled from the spec: `backend/app/schemas/vulnerability.py` is not
among the provided sources (only its importers are), so the record type
follows §3 of the specification: "a fixed set of named scalar fields
(numeric score, CVSS vector string, boolean flags, identifiers) plus an
open `extra` map for unmapped fields".  `main` is the dump of the declared
scalar fields; `model_dump()` presents `main` plus the `extra` map, which
is how `_get_field_value` and `LookupNode.evaluate` consume it. -/
structure VulnerabilityInput where
  id : Option String := Option.none
  cveId : Option String := Option.none
  main : List (String × Value) := []
  extra : List (String × Value) := []
deriving Repr

/-- The evaluation context assembled by `InferenceEngine.evaluate`
(inference.py lines 80-83): the dumped record and the pre-fetched lookup
cache `{table: {key: {field: value}}}`. -/
structure EvalContext where
  vuln : VulnerabilityInput
  lookups : List (String × List (String × List (String × Value))) := []

/-- The regex matcher `_safe_regex_match` (nodes.py lines 31-43) is backed
by Python's `re` engine, which is outside this embedding; it never raises
(length cap, compile errors and timeouts all yield `False`), so it is
modelled as an arbitrary boolean-valued function threaded through the
evaluator.  Every theorem holds for all such functions. -/
def RegexFn : Type := String → String → Bool

/-! ## Node evaluators (`backend/app/engine/nodes.py`) -/

/-- `dict.get(k, default)`. -/
def alGetD {α : Type} (d : List (String × α)) (k : String) (dflt : α) : α :=
  (alGet d k).getD dflt

/-- Substring test (`needle in hay` on strings). -/
def isSubstring (needle hay : List Char) : Bool :=
  match hay with
  | [] => needle.isEmpty
  | _ :: rest => pyStartsWith needle hay || isSubstring needle rest

/-- `str.split(sep)` for a single-character separator, keeping empty
segments (Python semantics for a non-empty separator). -/
def splitOnCharL (sep : Char) : List Char → List (List Char)
  | [] => [[]]
  | c :: cs =>
    if c = sep then [] :: splitOnCharL sep cs
    else
      match splitOnCharL sep cs with
      | [] => [[c]]
      | g :: gs => (c :: g) :: gs

/-- `int(str)` as used on handle fragments: optional sign then decimal
digits. -/
def pyIntParse (cs : List Char) : Option ℤ :=
  match cs with
  | '-' :: ds => (parseDigits ds).map (fun n => -(n : ℤ))
  | '+' :: ds => (parseDigits ds).map (fun n => (n : ℤ))
  | ds => (parseDigits ds).map (fun n => (n : ℤ))

/-- Python list indexing `l[i]` with an arbitrary value as index: integral
numbers (and booleans) index, negative indices count from the end,
out-of-range raises `IndexError`, anything else raises `TypeError`. -/
def pyIndex {α : Type} (l : List α) (v : Value) : Except PyErr α :=
  let idx : Except PyErr ℤ :=
    match v with
    | .num q => if q.den = 1 then .ok q.num else .error (.typeError "list indices must be integers or slices, not float")
    | .bool b => .ok (if b then 1 else 0)
    | _ => .error (.typeError "list indices must be integers")
  match idx with
  | .error e => .error e
  | .ok i =>
    let j := if i < 0 then i + l.length else i
    if h : 0 ≤ j ∧ j < l.length then
      .ok (l.get ⟨j.toNat, by omega⟩)
    else .error (.indexError "list index out of range")

/-- Python `x < n` for a config value against an int (used by the
`default_idx < len(self.conditions)` guard): numbers and booleans compare
numerically, anything else raises `TypeError`. -/
def pyLtNat (v : Value) (n : ℕ) : Except PyErr Bool :=
  match v with
  | .num q => .ok (q < n)
  | .bool b => .ok ((if b then (1 : ℚ) else 0) < n)
  | _ => .error (.typeError "'<' not supported between instances")

/-- Numeric reading of a config value for the `input_count > 1`
comparison: numbers and booleans compare numerically, anything else
raises `TypeError`. -/
def pyNumForCmp (v : Value) : Except PyErr ℚ :=
  match v with
  | .num q => .ok q
  | .bool b => .ok (if b then 1 else 0)
  | _ => .error (.typeError "'>' not supported between instances")

/-- `_get_field_value` (nodes.py lines 90-120): declared field → `extra`
map → CVSS-derived virtual field → `None`. -/
def getFieldValue (ctx : EvalContext) (field : String) : Value :=
  let value := pyGet ctx.vuln.main field
  let value := if value matches .none then pyGet ctx.vuln.extra field else value
  if value matches .none then
    if isCvssField field then
      let vec := pyGet ctx.vuln.main "cvss_vector"
      let vec := if vec matches .none then pyGet ctx.vuln.extra "cvss_vector" else vec
      if truthy vec then
        let parsed := match vec with
          | .str s => parseCvssVector s
          | _ => []
        match alGet parsed field with
        | some s => .str s
        | Option.none => .none
      else .none
    else .none
  else value

/-- `_evaluate_simple` (nodes.py lines 122-178). Null tests come first;
a `None` subject then fails every other operator; ordering operators
coerce both sides with `float(...)` (which can raise — those errors
propagate); string, regex and membership operators follow. -/
def evaluateSimple (rgx : RegexFn) (value : Value) (op : ConditionOperator)
    (condValue : Value) : Except PyErr Bool :=
  match op with
  | .isNull => .ok (value matches .none)
  | .isNotNull => .ok (!(value matches .none))
  | _ =>
    if value matches .none then .ok false
    else
      match op with
      | .eq => .ok (pyEq value condValue)
      | .neq => .ok (!pyEq value condValue)
      | .gt => do
        let a ← pyFloat value
        let b ← pyFloat condValue
        pure (b < a)
      | .gte => do
        let a ← pyFloat value
        let b ← pyFloat condValue
        pure (b ≤ a)
      | .lt => do
        let a ← pyFloat value
        let b ← pyFloat condValue
        pure (a < b)
      | .lte => do
        let a ← pyFloat value
        let b ← pyFloat condValue
        pure (a ≤ b)
      | .contains => .ok (isSubstring (pyStr condValue).data (pyStr value).data)
      | .notContains => .ok (!isSubstring (pyStr condValue).data (pyStr value).data)
      | .regex => .ok (rgx (pyStr condValue) (pyStr value))
      | .inOp =>
        match condValue with
        | .list l => .ok (l.any (fun x => pyEq value x))
        | _ =>
          .ok (((splitOnCharL ',' (pyStr condValue).data).map String.mk).contains (pyStr value))
      | .notIn =>
        match condValue with
        | .list l => .ok (!l.any (fun x => pyEq value x))
        | _ =>
          .ok (!((splitOnCharL ',' (pyStr condValue).data).map String.mk).contains (pyStr value))
      | .isNull => .ok false
      | .isNotNull => .ok false

/-- `_evaluate_criterion` (nodes.py lines 180-204). -/
def evaluateCriterion (rgx : RegexFn) (ctx : EvalContext)
    (criterion : SimpleConditionCriteria) (defaultValue : Value) : Except PyErr Bool :=
  let value :=
    match criterion.field with
    | some f => getFieldValue ctx f
    | Option.none => defaultValue
  evaluateSimple rgx value criterion.operator criterion.value

/-- `_evaluate_condition` (nodes.py lines 206-241): compound mode when
`logic` is set and `criteria` is truthy (non-`None` and non-empty),
else simple mode when `operator` is set, else `False`. -/
def evaluateCondition (rgx : RegexFn) (ctx : EvalContext) (value : Value)
    (condition : NodeCondition) : Except PyErr Bool :=
  if condition.logic.isSome ∧ (condition.criteria matches some (_ :: _)) then do
    let criteria := condition.criteria.getD []
    let results ← criteria.mapM (fun c => evaluateCriterion rgx ctx c value)
    match condition.logic with
    | some .andL => pure (results.all id)
    | _ => pure (results.any id)
  else
    match condition.operator with
    | some op => evaluateSimple rgx value op condition.value
    | Option.none => .ok false

/-- The indexed scan inside `match_condition` (nodes.py lines 85-88). -/
def matchConditionAux (rgx : RegexFn) (ctx : EvalContext) (value : Value) :
    ℕ → List NodeCondition → Except PyErr (Option (ℕ × String))
  | _, [] => .ok Option.none
  | i, c :: rest => do
    if ← evaluateCondition rgx ctx value c then pure (some (i, c.label))
    else matchConditionAux rgx ctx value (i + 1) rest

/-- `match_condition` (nodes.py lines 71-88): the first condition in
declared order whose predicate holds wins; returns its index and label. -/
def matchCondition (rgx : RegexFn) (conditions : List NodeCondition)
    (value : Value) (ctx : EvalContext) : Except PyErr (Option (ℕ × String)) :=
  matchConditionAux rgx ctx value 0 conditions

/-- `InputNode.evaluate` (nodes.py lines 253-272). -/
def evalInputNode (rgx : RegexFn) (node : NodeSchema) (ctx : EvalContext) :
    Except PyErr (Value × Option String) := do
  let fieldV := pyGet node.config "field"
  if ¬ truthy fieldV then
    .error (.nodeEval s!"Nœud {node.id}: champ 'field' non configuré")
  else
    let field := pyStr fieldV
    let value := getFieldValue ctx field
    match ← matchCondition rgx node.conditions value ctx with
    | some m => pure (value, some m.2)
    | Option.none =>
      let defaultIdx := pyGet node.config "default_branch"
      if defaultIdx matches .none then
        .error (.nodeEval s!"Nœud {node.id}: aucune condition ne correspond à la valeur '{pyStr value}'")
      else if ← pyLtNat defaultIdx node.conditions.length then
        let c ← pyIndex node.conditions defaultIdx
        pure (value, some c.label)
      else
        .error (.nodeEval s!"Nœud {node.id}: aucune condition ne correspond à la valeur '{pyStr value}'")

/-- `LookupNode.evaluate` (nodes.py lines 287-332).  Note the Python
`or` between the declared-field read and the `extra` read (line 299): a
falsy declared value falls through to `extra`, and the result is compared
with `is None` — not with truthiness — before the lookup proceeds. -/
def evalLookupNode (rgx : RegexFn) (node : NodeSchema) (ctx : EvalContext) :
    Except PyErr (Value × Option String) := do
  let lookupTable := pyGet node.config "lookup_table"
  let lookupKey := pyGet node.config "lookup_key"
  let lookupField := pyGet node.config "lookup_field"
  if ¬ (truthy lookupTable ∧ truthy lookupKey ∧ truthy lookupField) then
    .error (.nodeEval s!"Nœud {node.id}: configuration lookup incomplète")
  else
    let declared := pyGet ctx.vuln.main (pyStr lookupKey)
    let keyValue := if truthy declared then declared else pyGet ctx.vuln.extra (pyStr lookupKey)
    if keyValue matches .none then
      let defaultIdx := pyGet node.config "default_branch"
      if defaultIdx matches .none then
        .error (.nodeEval s!"Nœud {node.id}: clé de lookup '{pyStr lookupKey}' non trouvée")
      else if node.conditions.isEmpty then
        pure (.none, Option.none)
      else do
        let c ← pyIndex node.conditions defaultIdx
        pure (.none, some c.label)
    else
      let lookupCache := alGetD ctx.lookups (pyStr lookupTable) []
      match alGet lookupCache (pyStr keyValue) with
      | Option.none =>
        let defaultIdx := pyGet node.config "default_branch"
        if defaultIdx matches .none then
          .error (.nodeEval s!"Nœud {node.id}: asset '{pyStr keyValue}' non trouvé dans {pyStr lookupTable}")
        else if node.conditions.isEmpty then
          pure (.none, Option.none)
        else do
          let c ← pyIndex node.conditions defaultIdx
          pure (.none, some c.label)
      | some row =>
        let value := pyGet row (pyStr lookupField)
        match ← matchCondition rgx node.conditions value ctx with
        | some m => pure (value, some m.2)
        | Option.none =>
          .error (.nodeEval s!"Nœud {node.id}: aucune condition ne correspond à '{pyStr value}'")

/-- `OutputNode.evaluate` (nodes.py lines 427-429). -/
def evalOutputNode (node : NodeSchema) : Except PyErr (Value × Option String) :=
  .ok (alGetD node.config "decision" (.str "Unknown"), Option.none)

/-- Node evaluation dispatched on the schema's `NodeType`, mirroring the
class-per-type dispatch of `create_node`/`BaseNode.evaluate`.  `NodeType`
has only three members, so `EquationNode` is unreachable from any schema
(see claim C6). -/
def evalNode (rgx : RegexFn) (node : NodeSchema) (ctx : EvalContext) :
    Except PyErr (Value × Option String) :=
  match node.type with
  | .input => evalInputNode rgx node ctx
  | .lookup => evalLookupNode rgx node ctx
  | .output => evalOutputNode node

/-! ## Inference engine (`backend/app/engine/inference.py`) -/

/-- One step of the audit trail (`DecisionPath`,
`backend/app/schemas/evaluation.py` lines 8-24). -/
structure DecisionPath where
  nodeId : String
  nodeLabel : String
  nodeType : String
  fieldEvaluated : Value
  valueFound : Value
  conditionMatched : Option String
deriving Repr

/-- `EvaluationResult` (`backend/app/schemas/evaluation.py` lines 27-39). -/
structure EvaluationResult where
  vulnId : Option String
  decision : String
  decisionColor : Value := .none
  path : List DecisionPath := []
  error : Option String := Option.none
deriving Repr

/-- The compiled engine state after `InferenceEngine._build_tree`
(inference.py lines 18-50): the node dict, the source-indexed edge dict,
and the selected root. -/
structure Engine where
  nodes : List (String × NodeSchema)
  edges : List (String × List EdgeSchema)
  rootNodeId : Option String

/-- Root selection of `_build_tree` (inference.py lines 38-50): the first
node (in declaration order) that is no edge's target; when every node is
some edge's target — and only then — the first Input-typed node; `None`
when neither exists. -/
def selectRoot (nodes : List (String × NodeSchema)) (edges : List EdgeSchema) :
    Option String :=
  let targets := edges.map (·.target)
  match (nodes.map Prod.fst).find? (fun nid => ¬ targets.contains nid) with
  | some nid => some nid
  | Option.none =>
    if nodes.isEmpty then Option.none
    else ((nodes.map Prod.snd).find? (fun n => n.type matches NodeType.input)).map (·.id)

/-- `InferenceEngine._build_tree` (inference.py lines 26-50). -/
def buildTree (ts : TreeStructure) : Engine :=
  let nodes := ts.nodes.foldl (fun d n => alInsert d n.id n) []
  let edges := ts.edges.foldl
    (fun d e =>
      match alGet d e.source with
      | some l => alInsert d e.source (l ++ [e])
      | Option.none => alInsert d e.source [e])
    []
  { nodes := nodes, edges := edges, rootNodeId := selectRoot nodes ts.edges }

/-- `InferenceEngine._parse_input_index` (inference.py lines 175-184):
`"input-{n}"` → `n`, anything else (including a malformed integer part) →
`None`. -/
def parseInputIndex (targetHandle : Option String) : Option ℤ :=
  match targetHandle with
  | Option.none => Option.none
  | some s =>
    if s = "" then Option.none
    else if s.startsWith "input-" then
      match (splitOnCharL '-' s.data).get? 1 with
      | some part => pyIntParse part
      | Option.none => Option.none
    else Option.none

/-- `InferenceEngine._find_next_node` (inference.py lines 186-246).
`conditionLabel`/`conditionIndex`/`inputIndex` are the loop's values;
`inputCount` is the numeric reading of `config.get("input_count", 1)`
(the engine compares it with `> 1`). -/
def findNextNode (edges : List EdgeSchema) (conditionLabel : Option String)
    (conditionIndex : Option ℕ) (inputIndex : Option ℤ) (inputCount : ℚ) :
    Option (String × Option String) :=
  match edges with
  | [] => Option.none
  | [e] => some (e.target, e.targetHandle)
  | _ :: _ :: _ =>
    let handleEdge : Option EdgeSchema :=
      match conditionIndex with
      | Option.none => Option.none
      | some ci =>
        let handleId :=
          match inputIndex with
          | some ii => if inputCount > 1 then s!"handle-{ii}-{ci}" else s!"handle-{ci}"
          | Option.none => s!"handle-{ci}"
        match edges.find? (fun e => e.sourceHandle == some handleId) with
        | some e => some e
        | Option.none =>
          if inputCount > 1 then
            edges.find? (fun e => e.sourceHandle == some s!"handle-{ci}")
          else Option.none
    match handleEdge with
    | some e => some (e.target, e.targetHandle)
    | Option.none =>
      match edges.find? (fun e => e.label == conditionLabel) with
      | some e => some (e.target, e.targetHandle)
      | Option.none =>
        match edges.find? (fun e => e.label == Option.none) with
        | some e => some (e.target, e.targetHandle)
        | Option.none => Option.none

/-- First index whose condition label equals the matched label — the
engine's recomputation of `condition_index` from the label (inference.py
lines 142-147). -/
def findLabelIndex (conditions : List NodeCondition) (lbl : String) : Option ℕ :=
  conditions.findIdx? (fun c => c.label == lbl)

/-- `str(x)` of the matched-label value interpolated into the
"Aucune branche" message. -/
def optLabelStr : Option String → String
  | some s => s
  | Option.none => "None"

/-- The body of the `while iteration < max_iterations` loop of
`InferenceEngine.evaluate` (inference.py lines 93-173), fuelled by the
remaining iteration budget; fuel 0 is the loop exit, which returns the
iteration-cap error result (lines 168-173). -/
def evalLoop (rgx : RegexFn) (eng : Engine) (ctx : EvalContext)
    (includePath : Bool) (vulnId : Option String) :
    ℕ → String → Option ℤ → List DecisionPath → Except PyErr EvaluationResult
  | 0, _, _, path =>
    .ok { vulnId := vulnId, decision := "Error",
          path := if includePath then path else [],
          error := some "Limite d'itérations atteinte (boucle infinie détectée?)" }
  | n + 1, currentNodeId, currentInputIndex, path =>
    match alGet eng.nodes currentNodeId with
    | Option.none =>
      .ok { vulnId := vulnId, decision := "Error",
            path := if includePath then path else [],
            error := some s!"Nœud {currentNodeId} non trouvé" }
    | some node =>
      match evalNode rgx node ctx with
      | .error (.nodeEval m) =>
        .ok { vulnId := vulnId, decision := "Error",
              path := if includePath then path else [],
              error := some m }
      | .error e => .error e
      | .ok (value, conditionLabel) =>
        let path :=
          if includePath then
            let fieldEvaluated :=
              let f := pyGet node.config "field"
              if truthy f then f else pyGet node.config "lookup_field"
            path ++ [{ nodeId := node.id, nodeLabel := node.label,
                       nodeType := node.type.value,
                       fieldEvaluated := fieldEvaluated,
                       valueFound := value,
                       conditionMatched := conditionLabel }]
          else path
        if node.type matches NodeType.output then
          .ok { vulnId := vulnId, decision := pyStr value,
                decisionColor := pyGet node.config "color",
                path := if includePath then path else [] }
        else
          let conditionIndex : Option ℕ :=
            match conditionLabel with
            | some lbl => if lbl ≠ "" then findLabelIndex node.conditions lbl else Option.none
            | Option.none => Option.none
          match pyNumForCmp (alGetD node.config "input_count" (.num 1)) with
          | .error e => .error e
          | .ok inputCount =>
            let edgesForNode := alGetD eng.edges currentNodeId []
            match findNextNode edgesForNode conditionLabel conditionIndex
                currentInputIndex inputCount with
            | Option.none =>
              .ok { vulnId := vulnId, decision := "Error",
                    path := if includePath then path else [],
                    error := some s!"Aucune branche pour la condition '{optLabelStr conditionLabel}' du nœud {node.id}" }
            | some (nextId, nextTh) =>
              evalLoop rgx eng ctx includePath vulnId n nextId (parseInputIndex nextTh) path

/-- `max_iterations` (inference.py line 90). -/
def maxIterations : ℕ := 100

/-- Truthiness of an optional string (`if not self.root_node_id`,
`vulnerability.id or vulnerability.cve_id`). -/
def optStrTruthy : Option String → Bool
  | some s => s ≠ ""
  | Option.none => false

/-- `InferenceEngine.evaluate` (inference.py lines 52-173). -/
def engineEvaluate (rgx : RegexFn) (eng : Engine) (vuln : VulnerabilityInput)
    (lookups : List (String × List (String × List (String × Value))))
    (includePath : Bool) : Except PyErr EvaluationResult :=
  let vulnId := if optStrTruthy vuln.id then vuln.id else vuln.cveId
  if ¬ optStrTruthy eng.rootNodeId then
    .ok { vulnId := vulnId, decision := "Error", error := some "Arbre vide ou invalide" }
  else
    let ctx : EvalContext := { vuln := vuln, lookups := lookups }
    evalLoop rgx eng ctx includePath vulnId maxIterations (eng.rootNodeId.getD "") Option.none []

/-- Convenience: build the engine from a structure and evaluate one
record, as `BatchProcessor` does with its stored engine. -/
def evaluateStructure (rgx : RegexFn) (ts : TreeStructure) (vuln : VulnerabilityInput)
    (lookups : List (String × List (String × List (String × Value))))
    (includePath : Bool) : Except PyErr EvaluationResult :=
  engineEvaluate rgx (buildTree ts) vuln lookups includePath

/-! ## Batch processor (`backend/app/engine/batch.py`) -/

/-- `EvaluationResponse` (`backend/app/schemas/evaluation.py`
lines 69-83). -/
structure EvaluationResponse where
  total : ℕ
  successCount : ℕ
  errorCount : ℕ
  results : List EvaluationResult
  decisionSummary : List (String × ℕ)
deriving Repr

/-- Fuelled chunking worker (fuel = list length; each step consumes at
least one element when `n ≥ 1`). -/
def chunksAux {α : Type} (n : ℕ) : ℕ → List α → List (List α)
  | _, [] => []
  | 0, l => [l]
  | fuel + 1, l => l.take n :: chunksAux n fuel (l.drop n)

/-- The `range(0, len(vulnerabilities), chunk_size)` slicing of
`process_batch` (batch.py lines 50-53), for a positive chunk size. -/
def chunksOf {α : Type} (n : ℕ) (l : List α) : List (List α) :=
  chunksAux n l.length l

/-- An `EvaluationResult`'s error field is counted when truthy
(`if result.error:`, batch.py line 58). -/
def resultErrorTruthy (r : EvaluationResult) : Bool :=
  optStrTruthy r.error

/-- `Counter` increment preserving first-insertion order. -/
def counterIncr (d : List (String × ℕ)) (k : String) : List (String × ℕ) :=
  alInsert d k (alGetD d k 0 + 1)

/-- `BatchProcessor.process_batch` (batch.py lines 29-68): chunked
per-record evaluation through the shared engine, then error counting and
the decision histogram.  An exception escaping `engine.evaluate` aborts
the whole batch (`Except.error`). -/
def processBatch (rgx : RegexFn) (ts : TreeStructure) (chunkSize : ℕ)
    (vulns : List VulnerabilityInput)
    (lookups : List (String × List (String × List (String × Value))))
    (includePath : Bool) : Except PyErr EvaluationResponse := do
  let eng := buildTree ts
  let chunkResults ← (chunksOf chunkSize vulns).mapM
    (fun chunk => chunk.mapM (fun v => engineEvaluate rgx eng v lookups includePath))
  let results := chunkResults.flatten
  let errorCount := results.countP (fun r => resultErrorTruthy r)
  let decisionSummary := results.foldl
    (fun d r => if resultErrorTruthy r then d else counterIncr d r.decision) []
  pure { total := results.length,
         successCount := results.length - errorCount,
         errorCount := errorCount,
         results := results,
         decisionSummary := decisionSummary }

/-! ## Helpers and concrete fixtures used by the claim theorems -/

/-- Whether an `Except` value is a success. -/
def exOk {ε α : Type} : Except ε α → Bool
  | .ok _ => true
  | .error _ => false

/-- Whether an error is the catchable `NodeEvaluationError`. -/
def isNodeEvalErr : PyErr → Bool
  | .nodeEval _ => true
  | _ => false

/-- A node-evaluation outcome the engine's `try/except` fully handles:
success, or a `NodeEvaluationError` (which the engine converts into an
`"Error"` result).  Any other exception escapes `evaluate`. -/
def okOrNodeEval {α : Type} : Except PyErr α → Bool
  | .ok _ => true
  | .error e => isNodeEvalErr e

/-- A node is safe for a given context when its evaluation raises at worst
a `NodeEvaluationError` and its `input_count` config value is numerically
comparable (the `input_count > 1` comparison cannot raise). -/
def nodeSafe (rgx : RegexFn) (node : NodeSchema) (ctx : EvalContext) : Bool :=
  okOrNodeEval (evalNode rgx node ctx) &&
    exOk (pyNumForCmp (alGetD node.config "input_count" (.num 1)))

/-- `detect_cvss_version` on a `String`. -/
def detectCvssVersion (vector : String) : Option String :=
  detectCvssVersionL vector.data

/-- The character list of `"CVSS:3.0/"` (spelled out so that list lemmas
apply to it syntactically). -/
def pfx30 : List Char := ['C', 'V', 'S', 'S', ':', '3', '.', '0', '/']

/-- The character list of `"CVSS:3.1/"`. -/
def pfx31 : List Char := ['C', 'V', 'S', 'S', ':', '3', '.', '1', '/']

/-- The character list of `"CVSS:4.0/"`. -/
def pfx40 : List Char := ['C', 'V', 'S', 'S', ':', '4', '.', '0', '/']

/-- The ordered list of source-handle ids the traversal tries, as the
specification claim words it: with `input_count > 1` and a known input
slot, `handle-{slot}-{conditionIndex}` then the plain
`handle-{conditionIndex}`; otherwise (in particular with
`input_count == 1`) the plain handle directly; no handle is tried without
a condition index. -/
def handleCandidates (conditionIndex : Option ℕ) (inputIndex : Option ℤ)
    (inputCount : ℚ) : List String :=
  match conditionIndex, inputIndex with
  | Option.none, _ => []
  | some ci, some ii =>
    if inputCount > 1 then [s!"handle-{ii}-{ci}", s!"handle-{ci}"]
    else [s!"handle-{ci}"]
  | some ci, Option.none => [s!"handle-{ci}"]

/-- Edge resolution exactly as the specification claim describes it: a
sole outgoing edge is taken unconditionally; otherwise the handle
candidates are tried in order, then the first edge whose label equals the
matched label, then the first unlabelled edge; `none` when nothing
resolves.  This is the spec-side definition the source-side
`findNextNode` is compared against. -/
def findNextNodeSpec (edges : List EdgeSchema) (conditionLabel : Option String)
    (conditionIndex : Option ℕ) (inputIndex : Option ℤ) (inputCount : ℚ) :
    Option (String × Option String) :=
  match edges with
  | [e] => some (e.target, e.targetHandle)
  | _ =>
    let byHandle := (handleCandidates conditionIndex inputIndex inputCount).findSome?
      (fun h => edges.find? (fun e => e.sourceHandle == some h))
    match byHandle with
    | some e => some (e.target, e.targetHandle)
    | Option.none =>
      match edges.find? (fun e => e.label == conditionLabel) with
      | some e => some (e.target, e.targetHandle)
      | Option.none =>
        match edges.find? (fun e => e.label == Option.none) with
        | some e => some (e.target, e.targetHandle)
        | Option.none => Option.none

/-- The regex matcher used by all concrete fixtures (no fixture uses the
`regex` operator, so any function would do). -/
def noRegex : RegexFn := fun _ _ => false

/-- The parse of the preprocessed scenario formula
`"(kev ? 30 : 0) + cvss_score * 0.4"`.  The ternary preprocessor rewrites
it to `"((30 if kev else 0)) + cvss_score * 0.4"`, whose expression tree
is `BinOp(IfExp(Name kev, 30, 0), Add, BinOp(Name cvss_score, Mult, 0.4))`
(the float literal `0.4` is the rational 2/5 in this embedding). -/
def kevFormulaAst : PyExpr :=
  .binOp (.ifExp (.name "kev") (.constant (.num 30)) (.constant (.num 0)))
    .add (.binOp (.name "cvss_score") .mult (.constant (.num (2/5))))

/-- A three-node structure, `Input(score ≥ 9 → Critical | < 9 → Low)`
routing to `Act`/`Track` outputs. -/
def c2Tree : TreeStructure :=
  { nodes := [
      { id := "in", type := .input, label := "CVSS",
        config := [("field", .str "score")],
        conditions := [
          { label := "Critical", operator := some .gte, value := .num 9 },
          { label := "Low", operator := some .lt, value := .num 9 }] },
      { id := "act", type := .output, label := "Act", config := [("decision", .str "Act")] },
      { id := "track", type := .output, label := "Track", config := [("decision", .str "Track")] }],
    edges := [
      { id := "e0", source := "in", target := "act", sourceHandle := some "handle-0" },
      { id := "e1", source := "in", target := "track", sourceHandle := some "handle-1" }] }

/-- A well-formed record for `c2Tree`. -/
def c2GoodRec : VulnerabilityInput :=
  { id := some "v1", main := [("score", .num 7)] }

/-- A record whose `score` is the non-numeric string `"abc"`: the `>=`
condition then calls `float("abc")`. -/
def c2BadRec : VulnerabilityInput :=
  { id := some "v2", main := [("score", .str "abc")] }

/-- Two conditions sharing the label `"L"`: the first matches value 1, the
second value 2. -/
def c4Conds : List NodeCondition :=
  [{ label := "L", operator := some .eq, value := .num 1 },
   { label := "L", operator := some .eq, value := .num 2 }]

/-- A structure whose input node carries the duplicate-label conditions
`c4Conds`, with `handle-0` wired to output `A` and `handle-1` to
output `B`. -/
def c4Tree : TreeStructure :=
  { nodes := [
      { id := "in", type := .input, label := "X",
        config := [("field", .str "x")], conditions := c4Conds },
      { id := "oa", type := .output, label := "A", config := [("decision", .str "A")] },
      { id := "ob", type := .output, label := "B", config := [("decision", .str "B")] }],
    edges := [
      { id := "e0", source := "in", target := "oa", sourceHandle := some "handle-0" },
      { id := "e1", source := "in", target := "ob", sourceHandle := some "handle-1" }] }

/-- A record with `x = 2`, matching the second `"L"` condition of
`c4Conds`. -/
def c4Rec : VulnerabilityInput := { id := some "v", main := [("x", .num 2)] }

/-- The context `c4Rec` evaluates under. -/
def c4Ctx : EvalContext := { vuln := c4Rec, lookups := [] }

/-- Two nodes and no edges: both nodes lack incoming edges; the first in
declaration order is Output-typed, the second Input-typed. -/
def c5Tree : TreeStructure :=
  { nodes := [
      { id := "o", type := .output, label := "O", config := [("decision", .str "D")] },
      { id := "i", type := .input, label := "I", config := [("field", .str "x")] }],
    edges := [] }

/-- A one-node cyclic structure: the input node's sole edge loops back to
itself, and its `is_null` condition matches the absent field `x` forever. -/
def c9CycleTree : TreeStructure :=
  { nodes := [
      { id := "a", type := .input, label := "A",
        config := [("field", .str "x")],
        conditions := [{ label := "L", operator := some .isNull, value := .none }] }],
    edges := [{ id := "e", source := "a", target := "a" }] }

/-- The record evaluated against `c9CycleTree`. -/
def c9Rec : VulnerabilityInput := { id := some "v" }

/-- The result `c9CycleTree` produces on `c9Rec`: the iteration cap
fires. -/
def c9Result : EvaluationResult :=
  { vulnId := some "v", decision := "Error", path := [],
    error := some "Limite d'itérations atteinte (boucle infinie détectée?)" }

/-- A lookup node over table `assets`, key field `asset_id`, lookup field
`criticality`, one condition and no configured default branch. -/
def c10Node : NodeSchema :=
  { id := "lk", type := .lookup, label := "Lookup",
    config := [("lookup_table", .str "assets"), ("lookup_key", .str "asset_id"),
               ("lookup_field", .str "criticality")],
    conditions := [{ label := "Found", operator := some .eq, value := .str "High" }] }

/-- A context whose record carries the falsy value `0` for `asset_id`
both as a declared field and in `extra`, with an `assets` table that
contains the stringified key `"0"`. -/
def c10Ctx : EvalContext :=
  { vuln := { main := [("asset_id", .num 0)], extra := [("asset_id", .num 0)] },
    lookups := [("assets", [("0", [("criticality", .str "High")])])] }

/-- An input node whose single condition `x == 1` carries label `"X"`. -/
def c3Node : NodeSchema :=
  { id := "n", type := .input, label := "N",
    config := [("field", .str "x")],
    conditions := [{ label := "X", operator := some .eq, value := .num 1 }] }

/-- Two outgoing edges whose handles and labels match nothing the node
can produce. -/
def c3Edges : List EdgeSchema :=
  [{ id := "a", source := "n", target := "t1", sourceHandle := some "handle-9",
     label := some "no" },
   { id := "b", source := "n", target := "t2", sourceHandle := some "handle-8",
     label := some "no" }]

/-- A compiled engine holding `c3Node` and `c3Edges`. -/
def c3Eng : Engine :=
  { nodes := [("n", c3Node)], edges := [("n", c3Edges)], rootNodeId := some "n" }

/-- A context whose record has `x = 1`, so condition `"X"` matches. -/
def c3Ctx : EvalContext := { vuln := { main := [("x", .num 1)] }, lookups := [] }

/-! ## Lemmas and claim theorems -/

/-- `alGet` hits are list members. -/
theorem alGet_mem {α : Type} {d : List (String × α)} {k : String} {v : α}
    (h : alGet d k = some v) : (k, v) ∈ d := by
  unfold alGet at h
  cases hf : d.find? (fun p => p.1 == k) with
  | none => rw [hf] at h; simp at h
  | some p =>
    rw [hf] at h
    have hm := List.mem_of_find?_eq_some hf
    have hp := List.find?_some hf
    have hk : p.1 = k := by simpa using hp
    have hv : p.2 = v := by simpa using h
    have hkv : (k, v) = p := by
      obtain ⟨a, b⟩ := p
      simp only at hk hv
      rw [hk, hv]
    rw [hkv]
    exact hm

/-- `bind` on a successful `Except` applies the continuation. -/
theorem except_bind_ok {ε α β : Type} (a : α) (f : α → Except ε β) :
    (Except.ok a >>= f) = f a := rfl

/-- `bind` on a failed `Except` propagates the error. -/
theorem except_bind_error {ε α β : Type} (e : ε) (f : α → Except ε β) :
    ((Except.error e : Except ε α) >>= f) = Except.error e := rfl

/-- `find?` is the head of `filter`. -/
theorem find?_eq_head?_filter {α : Type} (p : α → Bool) (l : List α) :
    l.find? p = (l.filter p).head? := by
  induction l with
  | nil => rfl
  | cons a as ih =>
    cases h : p a with
    | true => simp [List.find?_cons_of_pos _ h, List.filter_cons, h]
    | false =>
      rw [List.find?_cons_of_neg _ (by simp [h]), List.filter_cons, if_neg (by simp [h])]
      exact ih

/-- C6: the claim asserts `NodeType` has exactly four variants (Input,
Lookup, Equation, Output).  The enum in `tree.py` declares only three —
`input`, `lookup`, `output` — so no injective family of four node types
exists, and an `Equation`-typed node is not representable in the schema.
(`create_node` nonetheless references `NodeType.EQUATION`, which raises
`AttributeError` at runtime — the code bug this claim exposes.) -/
theorem C6_nodeType_has_three_variants :
    (∀ t : NodeType, t = .input ∨ t = .lookup ∨ t = .output) ∧
    (∀ f : Fin 4 → NodeType, ¬ Function.Injective f) := by
  constructor
  · intro t; cases t <;> simp
  · decide

/-- Every successful run of the traversal loop appends at most one audit
step per unit of fuel. -/
theorem evalLoop_path_le (rgx : RegexFn) (eng : Engine) (ctx : EvalContext)
    (ip : Bool) (vid : Option String) :
    ∀ (fuel : ℕ) (cur : String) (cin : Option ℤ) (path : List DecisionPath)
      (r : EvaluationResult),
      evalLoop rgx eng ctx ip vid fuel cur cin path = .ok r →
      r.path.length ≤ path.length + fuel := by
  intro fuel
  induction fuel with
  | zero =>
    intro cur cin path r h
    rw [evalLoop] at h
    simp only [Except.ok.injEq] at h
    subst h
    cases ip <;> simp
  | succ n ih =>
    intro cur cin path r h
    rw [evalLoop] at h
    split at h
    · -- node not found
      simp only [Except.ok.injEq] at h
      subst h
      cases ip <;> simp
    · -- node found: split on the evaluation outcome
      split at h
      · -- NodeEvaluationError converted into an Error result
        simp only [Except.ok.injEq] at h
        subst h
        cases ip <;> simp
      · -- other exception propagates: contradiction with .ok
        simp at h
      · -- node evaluated
        dsimp only at h
        split at h
        · -- output node
          simp only [Except.ok.injEq] at h
          subst h
          cases ip <;> simp
        · split at h
          · -- input_count comparison raised: contradiction with .ok
            simp at h
          · split at h
            · -- no branch resolves
              simp only [Except.ok.injEq] at h
              subst h
              cases ip <;> simp
            · -- follow the edge
              have := ih _ _ _ r h
              cases ip <;> simp at this ⊢ <;> omega

/-- C9: for every compiled structure and record the traversal terminates:
the loop is bounded by the fixed cap `max_iterations = 100` (so a
successful result's audit trail never exceeds 100 steps), exhausting the
budget returns the "Limite d'itérations atteinte (boucle infinie
détectée?)" error result rather than looping, and the concrete one-node
cyclic structure `c9CycleTree` indeed ends with that error result. -/
theorem C9_iteration_cap :
    maxIterations = 100 ∧
    (∀ (rgx : RegexFn) (eng : Engine) (ctx : EvalContext) (ip : Bool)
       (vid : Option String) (cur : String) (cin : Option ℤ) (path : List DecisionPath),
       evalLoop rgx eng ctx ip vid 0 cur cin path =
         .ok { vulnId := vid, decision := "Error",
               path := if ip then path else [],
               error := some "Limite d'itérations atteinte (boucle infinie détectée?)" }) ∧
    (∀ (rgx : RegexFn) (eng : Engine) (vuln : VulnerabilityInput)
       (lookups : List (String × List (String × List (String × Value))))
       (ip : Bool) (r : EvaluationResult),
       engineEvaluate rgx eng vuln lookups ip = .ok r →
       r.path.length ≤ maxIterations) ∧
    engineEvaluate noRegex (buildTree c9CycleTree) c9Rec [] false = .ok c9Result := by
  refine ⟨rfl, fun _ _ _ _ _ _ _ _ => rfl, ?_, by rfl⟩
  intro rgx eng vuln lookups ip r h
  unfold engineEvaluate at h
  by_cases hr : optStrTruthy eng.rootNodeId
  · rw [if_neg (by simpa using hr)] at h
    have := evalLoop_path_le rgx eng { vuln := vuln, lookups := lookups } ip
      (if optStrTruthy vuln.id then vuln.id else vuln.cveId) maxIterations
      (eng.rootNodeId.getD "") Option.none [] r h
    simpa using this
  · rw [if_pos (by simpa using hr)] at h
    simp only [Except.ok.injEq] at h
    subst h
    simp [maxIterations]

/-- Witness for C9: the cyclic run's result satisfies the audit-trail
bound. -/
theorem C9_iteration_cap_witness : c9Result.path.length ≤ maxIterations :=
  C9_iteration_cap.2.2.1 noRegex (buildTree c9CycleTree) c9Rec [] false c9Result
    (by rfl)

/-- C5 counterexample: in `c5Tree` both nodes lack incoming edges (there
are no edges at all).  The engine selects the declaration-order-first
sourceless node `"o"` — an Output-typed node — whereas the claim says
that with several sourceless nodes the engine falls back to the first
Input-typed node (`"i"`). -/
theorem C5_counterexample :
    c5Tree.edges = [] ∧
    (buildTree c5Tree).rootNodeId = some "o" ∧
    ((buildTree c5Tree).nodes.map Prod.fst) = ["o", "i"] ∧
    (alGet (buildTree c5Tree).nodes "o").map (·.type) = some NodeType.output ∧
    (alGet (buildTree c5Tree).nodes "i").map (·.type) = some NodeType.input := by
  refine ⟨rfl, rfl, rfl, rfl, rfl⟩

/-- C5 (amended): at graph-build time the root is the first node in
declaration order with no incoming edge — even when several nodes have no
incoming edge; only when every node has an incoming edge (or the node
list is empty) does the engine fall back to the first Input-typed node
(`None` when there is none). -/
theorem C5_root_selection_amended :
    (∀ (ts : TreeStructure) (nid : String) (rest : List String),
      ((buildTree ts).nodes.map Prod.fst).filter
          (fun id => ¬ (ts.edges.map (fun e => e.target)).contains id) = nid :: rest →
      (buildTree ts).rootNodeId = some nid) ∧
    (∀ ts : TreeStructure,
      ((buildTree ts).nodes.map Prod.fst).filter
          (fun id => ¬ (ts.edges.map (fun e => e.target)).contains id) = [] →
      (buildTree ts).rootNodeId =
        (if (buildTree ts).nodes.isEmpty then Option.none
         else (((buildTree ts).nodes.map Prod.snd).find?
                 (fun n => n.type matches NodeType.input)).map (·.id))) := by
  constructor
  · intro ts nid rest hfil
    have hroot : (buildTree ts).rootNodeId = selectRoot (buildTree ts).nodes ts.edges := rfl
    rw [hroot]
    unfold selectRoot
    dsimp only
    rw [find?_eq_head?_filter]
    rw [hfil]
    rfl
  · intro ts hfil
    have hroot : (buildTree ts).rootNodeId = selectRoot (buildTree ts).nodes ts.edges := rfl
    rw [hroot]
    unfold selectRoot
    dsimp only
    rw [find?_eq_head?_filter]
    rw [hfil]
    rfl

/-- Witness for C5 (amended): on `c5Tree` the filtered sourceless list is
`["o", "i"]`, so the root is `"o"`. -/
theorem C5_root_selection_amended_witness : (buildTree c5Tree).rootNodeId = some "o" :=
  C5_root_selection_amended.1 c5Tree "o" ["i"] (by rfl)

/-- C10 counterexample: the record's declared `asset_id` is the falsy
`0`, so the `or` falls through to `extra`, which also yields the falsy
(but non-`None`) `0`.  The claim says the node then takes the default
branch or raises — it has no default branch configured, so it would have
to raise — but the code compares the key with `is None` only, looks the
stringified key `"0"` up in the `assets` table, finds the row, and
returns `("High", "Found")` successfully: a table lookup *was* performed
with the falsy key. -/
theorem C10_counterexample :
    truthy (pyGet c10Ctx.vuln.main "asset_id") = false ∧
    pyGet c10Ctx.vuln.extra "asset_id" = Value.num 0 ∧
    truthy (Value.num 0) = false ∧
    pyGet c10Node.config "default_branch" = Value.none ∧
    evalNode noRegex c10Node c10Ctx = .ok (.str "High", some "Found") := by
  exact ⟨rfl, rfl, by decide, rfl, rfl⟩

/-- C10 (amended): a falsy declared value for `lookup_key` falls through
to the `extra` map; but only a `None` combined value takes the default
branch or raises — a falsy non-`None` value (such as `0`) coming out of
`extra` is stringified and used as the lookup key.  First conjunct: with
`extra` yielding `None` and no default branch, the node raises the
"clé de lookup non trouvée" `NodeEvaluationError`.  Second conjunct: with
`extra` yielding any non-`None` value whose stringification hits the
table, the lookup proceeds and condition matching runs on the row's
field. -/
theorem C10_lookup_falsy_key_amended :
    (∀ (rgx : RegexFn) (node : NodeSchema) (ctx : EvalContext) (tbl key fld : String),
      node.type = NodeType.lookup →
      pyGet node.config "lookup_table" = .str tbl → tbl ≠ "" →
      pyGet node.config "lookup_key" = .str key → key ≠ "" →
      pyGet node.config "lookup_field" = .str fld → fld ≠ "" →
      truthy (pyGet ctx.vuln.main key) = false →
      pyGet ctx.vuln.extra key = Value.none →
      pyGet node.config "default_branch" = Value.none →
      evalNode rgx node ctx =
        .error (.nodeEval s!"Nœud {node.id}: clé de lookup '{key}' non trouvée")) ∧
    (∀ (rgx : RegexFn) (node : NodeSchema) (ctx : EvalContext) (tbl key fld : String)
       (v : Value) (row : List (String × Value)) (i : ℕ) (lbl : String),
      node.type = NodeType.lookup →
      pyGet node.config "lookup_table" = .str tbl → tbl ≠ "" →
      pyGet node.config "lookup_key" = .str key → key ≠ "" →
      pyGet node.config "lookup_field" = .str fld → fld ≠ "" →
      truthy (pyGet ctx.vuln.main key) = false →
      pyGet ctx.vuln.extra key = v → v ≠ Value.none →
      alGet (alGetD ctx.lookups tbl []) (pyStr v) = some row →
      matchCondition rgx node.conditions (pyGet row fld) ctx = .ok (some (i, lbl)) →
      evalNode rgx node ctx = .ok (pyGet row fld, some lbl)) := by
  constructor
  · intro rgx node ctx tbl key fld hty htbl htbl0 hkey hkey0 hfld hfld0 hmain hextra hdef
    have hdisp : evalNode rgx node ctx = evalLookupNode rgx node ctx := by
      unfold evalNode; rw [hty]
    rw [hdisp]
    unfold evalLookupNode
    rw [htbl, hkey, hfld]
    rw [if_neg (by simp [truthy, pyStr, htbl0, hkey0, hfld0])]
    simp only [pyStr, hmain, Bool.false_eq_true, if_false, hextra, hdef]
    simp
  · intro rgx node ctx tbl key fld v row i lbl hty htbl htbl0 hkey hkey0 hfld hfld0
      hmain hextra hv hrow hmatch
    have hdisp : evalNode rgx node ctx = evalLookupNode rgx node ctx := by
      unfold evalNode; rw [hty]
    rw [hdisp]
    unfold evalLookupNode
    rw [htbl, hkey, hfld]
    rw [if_neg (by simp [truthy, pyStr, htbl0, hkey0, hfld0])]
    simp only [pyStr, hmain, Bool.false_eq_true, if_false, hextra]
    cases v with
    | none => exact absurd rfl hv
    | bool b =>
      simp only [pyStr] at hrow
      simp only [hrow, hmatch]
      rfl
    | num q =>
      simp only [pyStr] at hrow
      simp only [hrow, hmatch]
      rfl
    | str s =>
      simp only [pyStr] at hrow
      simp only [hrow, hmatch]
      rfl
    | list l =>
      simp only [pyStr] at hrow
      simp only [hrow, hmatch]
      rfl

/-- Witness for C10 (amended), second conjunct: the `c10Node`/`c10Ctx`
fixture — falsy key `0` from `extra` — performs the lookup and matches
the `"Found"` condition. -/
theorem C10_lookup_falsy_key_amended_witness :
    evalNode noRegex c10Node c10Ctx = .ok (pyGet [("criticality", Value.str "High")] "criticality", some "Found") :=
  C10_lookup_falsy_key_amended.2 noRegex c10Node c10Ctx "assets" "asset_id" "criticality"
    (.num 0) [("criticality", .str "High")] 0 "Found"
    rfl rfl (by decide) rfl (by decide) rfl (by decide) (by decide) rfl
    (fun h => Value.noConfusion h) rfl rfl

/-- C4 counterexample: in `c4Conds` both conditions carry the label
`"L"`.  On the value 2, `match_condition` matches the *second* condition
(index 1), but the engine recomputes the routing index from the label and
finds index 0, so traversal of `c4Tree` follows `handle-0` to output
`"A"` — where the claim (routing index = matched index) demands
`handle-1`, i.e. output `"B"`. -/
theorem C4_counterexample :
    matchCondition noRegex c4Conds (.num 2) c4Ctx = .ok (some (1, "L")) ∧
    findLabelIndex c4Conds "L" = some 0 ∧
    (engineEvaluate noRegex (buildTree c4Tree) c4Rec [] false).map (·.decision) =
      .ok "A" := by
  exact ⟨by rfl, by rfl, by rfl⟩

/-- C2 counterexample: applying the ordering condition `score >= 9` to
the non-numeric string `"abc"` raises `float`'s `ValueError`, which
`InferenceEngine.evaluate` does not catch (it catches only
`NodeEvaluationError`), so the exception escapes the single-record
boundary and aborts `process_batch` for the whole batch. -/
theorem C2_counterexample :
    evaluateStructure noRegex c2Tree c2BadRec [] true =
      .error (.valueError "could not convert string to float: abc") ∧
    processBatch noRegex c2Tree 5000 [c2GoodRec, c2BadRec] [] true =
      .error (.valueError "could not convert string to float: abc") := by
  exact ⟨by rfl, by rfl⟩

mutual
/-- The whitelist walk accepts an expression exactly when the
specification's whitelist does. -/
theorem validateNode_eq_spec : ∀ (e : PyExpr), exOk (validateNode e) = allowedBySpec e
  | .constant v => by cases v <;> rfl
  | .name _ => rfl
  | .unaryOp op operand => by
    cases hop : allowedUnaryOp op with
    | true =>
      simp only [validateNode, allowedBySpec, hop, if_true, Bool.true_and]
      exact validateNode_eq_spec operand
    | false => simp [validateNode, allowedBySpec, hop, exOk]
  | .binOp l op r => by
    cases hop : allowedBinOp op with
    | true =>
      simp only [validateNode, allowedBySpec, hop, if_true, Bool.true_and]
      cases h1 : validateNode l with
      | error m =>
        have e1 : allowedBySpec l = false := by rw [← validateNode_eq_spec l, h1]; rfl
        simp [e1, exOk]
      | ok u =>
        cases u
        have e1 : allowedBySpec l = true := by rw [← validateNode_eq_spec l, h1]; rfl
        simpa [e1] using validateNode_eq_spec r
    | false => simp [validateNode, allowedBySpec, hop, exOk]
  | .compare l ops comparators => by
    cases hops : ops.all allowedCmpOp with
    | true =>
      simp only [validateNode, allowedBySpec, hops, if_true, Bool.true_and]
      cases h1 : validateNode l with
      | error m =>
        have e1 : allowedBySpec l = false := by rw [← validateNode_eq_spec l, h1]; rfl
        simp [e1, exOk]
      | ok u =>
        cases u
        have e1 : allowedBySpec l = true := by rw [← validateNode_eq_spec l, h1]; rfl
        simpa [e1] using validateList_eq_spec comparators
    | false => simp [validateNode, allowedBySpec, hops, exOk]
  | .boolOp op values => by
    simpa [validateNode, allowedBySpec] using validateList_eq_spec values
  | .ifExp t b o => by
    simp only [validateNode, allowedBySpec]
    cases h1 : validateNode t with
    | error m =>
      have e1 : allowedBySpec t = false := by rw [← validateNode_eq_spec t, h1]; rfl
      simp [e1, exOk]
    | ok u =>
      cases u
      have e1 : allowedBySpec t = true := by rw [← validateNode_eq_spec t, h1]; rfl
      cases h2 : validateNode b with
      | error m =>
        have e2 : allowedBySpec b = false := by rw [← validateNode_eq_spec b, h2]; rfl
        simp [e1, e2, exOk]
      | ok u =>
        cases u
        have e2 : allowedBySpec b = true := by rw [← validateNode_eq_spec b, h2]; rfl
        simpa [e1, e2] using validateNode_eq_spec o
  | .call func args hasKeywords => by
    cases func
    case name id =>
      cases hid : allowedFunctions.contains id with
      | true =>
        have hmem : id ∈ allowedFunctions := by simpa using hid
        cases hasKeywords with
        | true => simp [validateNode, allowedBySpec, hid, hmem, exOk]
        | false =>
          simpa [validateNode, allowedBySpec, hid, hmem] using validateList_eq_spec args
      | false =>
        have hmem : id ∉ allowedFunctions := by simpa using hid
        simp [validateNode, allowedBySpec, hid, hmem, exOk]
    all_goals simp [validateNode, allowedBySpec, exOk]
  | .attribute v a => rfl
  | .subscript v i => rfl
  | .other k => rfl

/-- List version of `validateNode_eq_spec`. -/
theorem validateList_eq_spec : ∀ (es : PyExprList),
    exOk (validateList es) = allowedListBySpec es
  | .nil => rfl
  | .cons e es => by
    simp only [validateList, allowedListBySpec]
    cases h1 : validateNode e with
    | error m =>
      have e1 : allowedBySpec e = false := by rw [← validateNode_eq_spec e, h1]; rfl
      simp [e1, exOk]
    | ok u =>
      cases u
      have e1 : allowedBySpec e = true := by rw [← validateNode_eq_spec e, h1]; rfl
      simpa [e1] using validateList_eq_spec es
end

/-- C1: the formula sandbox's validation pass accepts exactly the
whitelist the specification describes — numeric/boolean literals,
variable names, unary `+ - not`, binary `+ - * / % ** //`, (standard)
comparisons, boolean `and`/`or`, the conditional expression, and calls to
exactly `min`/`max`/`abs`/`round` with positional arguments only — and
rejects everything else with a `FormulaError` (modelled as `.error`),
never silently: in particular attribute access, subscripting, string
literals, keyword arguments, and calls to any other function are
rejected, and `evaluate_formula`'s identical walk refuses every
non-whitelisted tree before evaluating it. -/
theorem C1_formula_validation_whitelist :
    (∀ e : PyExpr, exOk (validateNode e) = allowedBySpec e) ∧
    (∀ (v : PyExpr) (a : String), exOk (validateNode (.attribute v a)) = false) ∧
    (∀ (v i : PyExpr), exOk (validateNode (.subscript v i)) = false) ∧
    (∀ s : String, exOk (validateNode (.constant (.str s))) = false) ∧
    (∀ (f : PyExpr) (args : PyExprList), exOk (validateNode (.call f args true)) = false) ∧
    (∀ (id : String) (args : PyExprList) (kw : Bool),
      allowedFunctions.contains id = false →
      exOk (validateNode (.call (.name id) args kw)) = false) ∧
    (∀ (e : PyExpr) (varList : List (String × Value)),
      allowedBySpec e = false → exOk (evaluateFormulaAst e varList) = false) := by
  refine ⟨validateNode_eq_spec, fun v a => rfl, fun v i => rfl, fun s => rfl,
    ?_, ?_, ?_⟩
  · intro f args
    cases f
    case name id =>
      by_cases hmem : id ∈ allowedFunctions <;> simp [validateNode, exOk, hmem]
    all_goals simp [validateNode, exOk]
  · intro id args kw hid
    have hmem : id ∉ allowedFunctions := by simpa using hid
    cases kw <;> simp [validateNode, exOk, hmem]
  · intro e varList hspec
    have h := validateNode_eq_spec e
    rw [hspec] at h
    cases hv : validateNode e with
    | error m => unfold evaluateFormulaAst; rw [hv]; rfl
    | ok u => rw [hv] at h; simp [exOk] at h

/-- Witness for C1: the disallowed call `eval()` and an attribute access
are both rejected, also by `evaluate_formula`'s walk. -/
theorem C1_formula_validation_whitelist_witness :
    exOk (validateNode (.call (.name "eval") PyExprList.nil false)) = false ∧
    exOk (evaluateFormulaAst (.attribute (.name "x") "y") []) = false :=
  ⟨C1_formula_validation_whitelist.2.2.2.2.2.1 "eval" PyExprList.nil false (by rfl),
   C1_formula_validation_whitelist.2.2.2.2.2.2 (.attribute (.name "x") "y") [] (by rfl)⟩

/-- A `None` among the supplied variables makes the coercion loop fail. -/
theorem coerceVars_mem_none :
    ∀ (vl : List (String × Value)) (n : String),
      (n, Value.none) ∈ vl → exOk (coerceVars vl) = false := by
  intro vl
  induction vl with
  | nil => intro n h; simp at h
  | cons p rest ih =>
    intro n h
    obtain ⟨m, v⟩ := p
    rcases List.mem_cons.mp h with heq | hmem
    · obtain ⟨h1, h2⟩ := Prod.mk.injEq .. ▸ heq
      subst h2
      simp [coerceVars, coerceVar, exOk]
    · cases hc : coerceVar m v with
      | error msg => simp [coerceVars, hc, exOk]
      | ok q =>
        have := ih n hmem
        cases hr : coerceVars rest with
        | error msg => simp [coerceVars, hc, hr, exOk]
        | ok tl => rw [hr] at this; simp [exOk] at this

/-- A `None` among the supplied variables makes the whole evaluation
fail. -/
theorem evaluateFormulaAst_none_var :
    ∀ (e : PyExpr) (vl : List (String × Value)) (n : String),
      (n, Value.none) ∈ vl → exOk (evaluateFormulaAst e vl) = false := by
  intro e vl n h
  unfold evaluateFormulaAst
  cases hv : validateNode e with
  | error m => rfl
  | ok u =>
    cases u
    have hc0 := coerceVars_mem_none vl n h
    cases hc : coerceVars vl with
    | error m => rfl
    | ok sv => rw [hc] at hc0; simp [exOk] at hc0

unseal Rat.add Rat.mul Rat.sub Rat.inv Rat.ofScientific in
/-- C7: `evaluate_formula` (from the parsed tree onward) coerces each
supplied variable — booleans to 1.0/0.0, numbers to float, numeric-looking
strings to float — and raises a `FormulaError` (modelled as `.error`, so
never an unhandled fault) when a variable is `None` or non-coercible, on
division by zero, and when the result is non-numeric; the result is a
float with a boolean result coerced to 1.0/0.0; and the scenario formula
`"(kev ? 30 : 0) + cvss_score * 0.4"` with `kev=true, cvss_score=9.0`
evaluates to 33.6 (= 168/5 exactly). -/
theorem C7_evaluate_formula_coercion :
    (∀ (name : String) (b : Bool), coerceVar name (.bool b) = .ok (if b then 1 else 0)) ∧
    (∀ (name : String) (q : ℚ), coerceVar name (.num q) = .ok q) ∧
    (∀ (name s : String), exOk (coerceVar name (.str s)) = (strToFloat? s).isSome) ∧
    (∀ (name s : String) (q : ℚ), strToFloat? s = some q → coerceVar name (.str s) = .ok q) ∧
    (∀ name : String, exOk (coerceVar name Value.none) = false) ∧
    (∀ (e : PyExpr) (vl : List (String × Value)) (n : String),
      (n, Value.none) ∈ vl → exOk (evaluateFormulaAst e vl) = false) ∧
    (∀ (e : PyExpr) (vl : List (String × Value)) (sv : List (String × ℚ)),
      validateNode e = .ok () → coerceVars vl = .ok sv →
      evalExpr sv e = .error .zeroDiv →
      evaluateFormulaAst e vl = .error "Division par zéro dans la formule") ∧
    (∀ (e : PyExpr) (vl : List (String × Value)) (sv : List (String × ℚ)) (id : String),
      validateNode e = .ok () → coerceVars vl = .ok sv →
      evalExpr sv e = .ok (.builtin id) →
      evaluateFormulaAst e vl =
        .error s!"Le résultat de la formule n'est pas un nombre : builtin function {id}") ∧
    (∀ (e : PyExpr) (vl : List (String × Value)) (sv : List (String × ℚ)) (b : Bool),
      validateNode e = .ok () → coerceVars vl = .ok sv →
      evalExpr sv e = .ok (.bool b) →
      evaluateFormulaAst e vl = .ok (if b then 1 else 0)) ∧
    evaluateFormulaAst kevFormulaAst [("kev", .bool true), ("cvss_score", .num 9)] =
      .ok (168/5) := by
  refine ⟨fun name b => rfl, fun name q => rfl, ?_, ?_, fun name => rfl,
    evaluateFormulaAst_none_var, ?_, ?_, ?_, by rfl⟩
  · intro name s
    cases h : strToFloat? s <;> simp [coerceVar, h, exOk]
  · intro name s q h
    simp [coerceVar, h]
  · intro e vl sv hval hco hev
    simp only [evaluateFormulaAst, hval, hco, hev]
  · intro e vl sv id hval hco hev
    simp only [evaluateFormulaAst, hval, hco, hev]
  · intro e vl sv b hval hco hev
    simp only [evaluateFormulaAst, hval, hco, hev]

unseal Rat.add Rat.mul Rat.sub Rat.inv Rat.ofScientific in
/-- Witness for C7: the numeric-looking string `"9.5"` coerces to 19/2; a
`None` variable fails; `1/0` reports division by zero; the bare name
`min` produces the non-numeric-result error; a comparison result is
coerced to 1.0. -/
theorem C7_evaluate_formula_coercion_witness :
    coerceVar "x" (.str "9.5") = .ok (19/2) ∧
    exOk (evaluateFormulaAst (.name "x") [("x", Value.none)]) = false ∧
    evaluateFormulaAst (.binOp (.constant (.num 1)) .div (.constant (.num 0))) [] =
      .error "Division par zéro dans la formule" ∧
    evaluateFormulaAst (.name "min") [] =
      .error "Le résultat de la formule n'est pas un nombre : builtin function min" ∧
    evaluateFormulaAst
        (.compare (.constant (.num 1)) [.eq] (.cons (.constant (.num 1)) .nil)) [] =
      .ok 1 :=
  ⟨C7_evaluate_formula_coercion.2.2.2.1 "x" "9.5" (19/2) (by rfl),
   C7_evaluate_formula_coercion.2.2.2.2.2.1 (.name "x") [("x", Value.none)] "x" (by simp),
   C7_evaluate_formula_coercion.2.2.2.2.2.2.1
     (.binOp (.constant (.num 1)) .div (.constant (.num 0))) [] [] (by rfl) (by rfl) (by rfl),
   C7_evaluate_formula_coercion.2.2.2.2.2.2.2.1
     (.name "min") [] [] "min" (by rfl) (by rfl) (by rfl),
   C7_evaluate_formula_coercion.2.2.2.2.2.2.2.2.1
     (.compare (.constant (.num 1)) [.eq] (.cons (.constant (.num 1)) .nil)) [] [] true
     (by rfl) (by rfl) (by rfl)⟩

/-- `findNextNode` equals its specification reading on every input. -/
theorem findNextNode_eq_spec (edges : List EdgeSchema) (condLabel : Option String)
    (condIndex : Option ℕ) (inputIndex : Option ℤ) (inputCount : ℚ) :
    findNextNode edges condLabel condIndex inputIndex inputCount =
      findNextNodeSpec edges condLabel condIndex inputIndex inputCount := by
  match edges with
  | [] =>
    unfold findNextNode findNextNodeSpec handleCandidates
    cases condIndex <;> cases inputIndex <;> by_cases hc : inputCount > 1 <;>
      simp [List.findSome?, hc]
  | [e] => rfl
  | e1 :: e2 :: rest =>
    unfold findNextNode findNextNodeSpec handleCandidates
    cases condIndex with
    | none => cases inputIndex <;> simp
    | some ci =>
      cases inputIndex with
      | none =>
        by_cases hc : inputCount > 1
        · simp only [hc, if_true, List.findSome?]
          cases hf : (e1 :: e2 :: rest).find?
              (fun e => e.sourceHandle == some s!"handle-{ci}") <;>
            simp [List.findSome?_cons, hf]
        · simp only [hc, if_false, List.findSome?]
          cases hf : (e1 :: e2 :: rest).find?
              (fun e => e.sourceHandle == some s!"handle-{ci}") <;>
            simp [List.findSome?_cons, hf]
      | some ii =>
        by_cases hc : inputCount > 1
        · simp only [hc, if_true, List.findSome?]
          cases hf1 : (e1 :: e2 :: rest).find?
              (fun e => e.sourceHandle == some s!"handle-{ii}-{ci}") <;>
            cases hf2 : (e1 :: e2 :: rest).find?
                (fun e => e.sourceHandle == some s!"handle-{ci}") <;>
              simp [List.findSome?_cons, hf1, hf2]
        · simp only [hc, if_false, List.findSome?]
          cases hf : (e1 :: e2 :: rest).find?
              (fun e => e.sourceHandle == some s!"handle-{ci}") <;>
            simp [List.findSome?_cons, hf]

/-- C3: for every non-terminal node the outgoing edge is resolved in
exactly the claimed order — a sole outgoing edge unconditionally; with
`input_count > 1` and a known input slot the
`handle-{inputSlot}-{conditionIndex}` edge, falling back to the plain
`handle-{conditionIndex}` edge; with `input_count == 1` (or no known
slot) the plain handle directly; then the first edge whose label equals
the matched condition label; then the first unlabelled edge — and when
nothing resolves, the traversal returns an error result saying no branch
exists for the matched condition. -/
theorem C3_edge_resolution_order :
    (∀ (edges : List EdgeSchema) (condLabel : Option String) (condIndex : Option ℕ)
       (inputIndex : Option ℤ) (inputCount : ℚ),
      findNextNode edges condLabel condIndex inputIndex inputCount =
        findNextNodeSpec edges condLabel condIndex inputIndex inputCount) ∧
    (∀ (rgx : RegexFn) (eng : Engine) (ctx : EvalContext) (ip : Bool)
       (vid : Option String) (n : ℕ) (cur : String) (cin : Option ℤ)
       (path : List DecisionPath) (node : NodeSchema) (value : Value)
       (condLabel : Option String) (inputCount : ℚ),
      alGet eng.nodes cur = some node →
      evalNode rgx node ctx = .ok (value, condLabel) →
      (node.type matches NodeType.output) = false →
      pyNumForCmp (alGetD node.config "input_count" (.num 1)) = .ok inputCount →
      findNextNode (alGetD eng.edges cur []) condLabel
        (match condLabel with
         | some lbl => if lbl ≠ "" then findLabelIndex node.conditions lbl else Option.none
         | Option.none => Option.none)
        cin inputCount = Option.none →
      ∃ r, evalLoop rgx eng ctx ip vid (n + 1) cur cin path = .ok r ∧
        r.decision = "Error" ∧
        r.error = some s!"Aucune branche pour la condition '{optLabelStr condLabel}' du nœud {node.id}") := by
  refine ⟨findNextNode_eq_spec, ?_⟩
  intro rgx eng ctx ip vid n cur cin path node value condLabel inputCount
    hn hev hty hcnt hfind
  rw [evalLoop]
  simp only [hn, hev, hty, hcnt, hfind, Bool.false_eq_true, if_false]
  exact ⟨_, rfl, rfl, rfl⟩

/-- Witness for C3: on the `c3Eng` fixture the matched label `"X"`
resolves no edge (wrong handles, wrong labels, no unlabelled default), so
one loop step returns the "Aucune branche" error result. -/
theorem C3_edge_resolution_order_witness :
    ∃ r, evalLoop noRegex c3Eng c3Ctx false Option.none 1 "n" Option.none [] = .ok r ∧
      r.decision = "Error" ∧
      r.error = some "Aucune branche pour la condition 'X' du nœud n" :=
  C3_edge_resolution_order.2 noRegex c3Eng c3Ctx false Option.none 0 "n" Option.none []
    c3Node (.num 1) (some "X") 1 (by rfl) (by rfl) (by rfl) (by rfl) (by rfl)

/-- A successful match's label occurs among the condition labels. -/
theorem matchConditionAux_label_mem (rgx : RegexFn) (ctx : EvalContext) (value : Value) :
    ∀ (conds : List NodeCondition) (k i : ℕ) (lbl : String),
      matchConditionAux rgx ctx value k conds = .ok (some (i, lbl)) →
      lbl ∈ conds.map (·.label) := by
  intro conds
  induction conds with
  | nil => intro k i lbl h; rw [matchConditionAux] at h; simp at h
  | cons c rest ih =>
    intro k i lbl h
    rw [matchConditionAux] at h
    cases hb : evaluateCondition rgx ctx value c with
    | error m => rw [hb] at h; simp [except_bind_error] at h
    | ok b =>
      rw [hb] at h
      cases b with
      | true =>
        simp only [except_bind_ok, if_true, pure, Except.pure] at h
        simp only [Except.ok.injEq, Option.some.injEq, Prod.mk.injEq] at h
        simp [← h.2]
      | false =>
        simp only [except_bind_ok, if_false, Bool.false_eq_true] at h
        have := ih (k + 1) i lbl h
        simp [this]

/-- The indexed scan returns the first condition (in declared order)
whose predicate holds, together with its index: everything before it
evaluated to `false`. -/
theorem matchConditionAux_spec (rgx : RegexFn) (ctx : EvalContext) (value : Value) :
    ∀ (conds : List NodeCondition) (k i : ℕ) (lbl : String),
      matchConditionAux rgx ctx value k conds = .ok (some (i, lbl)) →
      k ≤ i ∧
      (∃ c, conds.get? (i - k) = some c ∧ c.label = lbl ∧
        evaluateCondition rgx ctx value c = .ok true) ∧
      (∀ j, j < i - k → ∃ cj, conds.get? j = some cj ∧
        evaluateCondition rgx ctx value cj = .ok false) := by
  intro conds
  induction conds with
  | nil => intro k i lbl h; rw [matchConditionAux] at h; simp at h
  | cons c rest ih =>
    intro k i lbl h
    rw [matchConditionAux] at h
    cases hb : evaluateCondition rgx ctx value c with
    | error m => rw [hb] at h; simp [except_bind_error] at h
    | ok b =>
      rw [hb] at h
      cases b with
      | true =>
        simp only [except_bind_ok, if_true, pure, Except.pure] at h
        simp only [Except.ok.injEq, Option.some.injEq, Prod.mk.injEq] at h
        obtain ⟨hik, hlbl⟩ := h
        subst hik
        refine ⟨le_refl k, ⟨c, ?_, hlbl, hb⟩, ?_⟩
        · simp
        · intro j hj; omega
      | false =>
        simp only [except_bind_ok, if_false, Bool.false_eq_true] at h
        obtain ⟨hki, ⟨c', hc', hlbl', hev'⟩, hbefore⟩ := ih (k + 1) i lbl h
        refine ⟨by omega, ⟨c', ?_, hlbl', hev'⟩, ?_⟩
        · have : i - k = (i - (k + 1)) + 1 := by omega
          rw [this]
          simpa using hc'
        · intro j hj
          cases j with
          | zero => exact ⟨c, by simp, hb⟩
          | succ j' =>
            have hj' : j' < i - (k + 1) := by omega
            obtain ⟨cj, hcj, hevj⟩ := hbefore j' hj'
            exact ⟨cj, by simpa using hcj, hevj⟩

/-- With pairwise-distinct labels, the label-based index recomputation
recovers exactly the matched index. -/
theorem matchConditionAux_findIdx (rgx : RegexFn) (ctx : EvalContext) (value : Value) :
    ∀ (conds : List NodeCondition) (k i : ℕ) (lbl : String),
      (conds.map (·.label)).Nodup →
      matchConditionAux rgx ctx value k conds = .ok (some (i, lbl)) →
      conds.findIdx? (fun c => c.label == lbl) k = some i := by
  intro conds
  induction conds with
  | nil => intro k i lbl _ h; rw [matchConditionAux] at h; simp at h
  | cons c rest ih =>
    intro k i lbl hnd h
    rw [matchConditionAux] at h
    cases hb : evaluateCondition rgx ctx value c with
    | error m => rw [hb] at h; simp [except_bind_error] at h
    | ok b =>
      rw [hb] at h
      cases b with
      | true =>
        simp only [except_bind_ok, if_true, pure, Except.pure] at h
        simp only [Except.ok.injEq, Option.some.injEq, Prod.mk.injEq] at h
        obtain ⟨hik, hlbl⟩ := h
        subst hik
        simp [List.findIdx?_cons, hlbl]
      | false =>
        simp only [except_bind_ok, if_false, Bool.false_eq_true] at h
        have hmem := matchConditionAux_label_mem rgx ctx value rest (k + 1) i lbl h
        have hnd' : (rest.map (·.label)).Nodup := by
          simpa using hnd.of_cons
        have hne : c.label ≠ lbl := by
          intro hceq
          have : c.label ∈ rest.map (·.label) := hceq ▸ hmem
          simp only [List.map_cons, List.nodup_cons] at hnd
          exact hnd.1 this
        rw [List.findIdx?_cons, if_neg (by simp [hne])]
        exact ih (k + 1) i lbl hnd' h

/-- First-index characterisation of `findLabelIndex`. -/
theorem findLabelIndex_spec :
    ∀ (conds : List NodeCondition) (k i : ℕ) (lbl : String),
      conds.findIdx? (fun c => c.label == lbl) k = some i →
      k ≤ i ∧
      (∃ c, conds.get? (i - k) = some c ∧ c.label = lbl) ∧
      (∀ j, j < i - k → ∀ cj, conds.get? j = some cj → cj.label ≠ lbl) := by
  intro conds
  induction conds with
  | nil => intro k i lbl h; simp at h
  | cons c rest ih =>
    intro k i lbl h
    rw [List.findIdx?_cons] at h
    by_cases hc : c.label = lbl
    · rw [if_pos (by simp [hc])] at h
      simp only [Option.some.injEq] at h
      subst h
      exact ⟨le_refl k, ⟨c, by simp, hc⟩, by intro j hj; omega⟩
    · rw [if_neg (by simp [hc])] at h
      obtain ⟨hki, ⟨c', hc', hlbl'⟩, hbefore⟩ := ih (k + 1) i lbl h
      refine ⟨by omega, ⟨c', ?_, hlbl'⟩, ?_⟩
      · have : i - k = (i - (k + 1)) + 1 := by omega
        rw [this]
        simpa using hc'
      · intro j hj cj hcj
        cases j with
        | zero => simp at hcj; rw [← hcj]; exact hc
        | succ j' =>
          have hj' : j' < i - (k + 1) := by omega
          exact hbefore j' hj' cj (by simpa using hcj)

/-- C4 (amended): the first condition in declared order whose predicate
is true wins (its index and label are what `match_condition` returns);
but the `conditionIndex` used for edge routing is recomputed from the
*label* — it is the index of the first condition bearing the matched
label.  The two agree whenever the node's condition labels are pairwise
distinct; with duplicated labels the router is sent to the first
same-labelled condition instead of the matched one (see the
counterexample). -/
theorem C4_first_match_and_routing_index_amended :
    (∀ (rgx : RegexFn) (conds : List NodeCondition) (value : Value)
       (ctx : EvalContext) (i : ℕ) (lbl : String),
      matchCondition rgx conds value ctx = .ok (some (i, lbl)) →
      (∃ c, conds.get? i = some c ∧ c.label = lbl ∧
        evaluateCondition rgx ctx value c = .ok true) ∧
      (∀ j, j < i → ∃ cj, conds.get? j = some cj ∧
        evaluateCondition rgx ctx value cj = .ok false)) ∧
    (∀ (conds : List NodeCondition) (i : ℕ) (lbl : String),
      findLabelIndex conds lbl = some i →
      (∃ c, conds.get? i = some c ∧ c.label = lbl) ∧
      (∀ j, j < i → ∀ cj, conds.get? j = some cj → cj.label ≠ lbl)) ∧
    (∀ (rgx : RegexFn) (conds : List NodeCondition) (value : Value)
       (ctx : EvalContext) (i : ℕ) (lbl : String),
      (conds.map (·.label)).Nodup →
      matchCondition rgx conds value ctx = .ok (some (i, lbl)) →
      findLabelIndex conds lbl = some i) := by
  refine ⟨?_, ?_, ?_⟩
  · intro rgx conds value ctx i lbl h
    obtain ⟨_, hfound, hbefore⟩ := matchConditionAux_spec rgx ctx value conds 0 i lbl h
    simp only [Nat.sub_zero] at hfound hbefore
    exact ⟨hfound, hbefore⟩
  · intro conds i lbl h
    obtain ⟨_, hfound, hbefore⟩ := findLabelIndex_spec conds 0 i lbl h
    simp only [Nat.sub_zero] at hfound hbefore
    exact ⟨hfound, hbefore⟩
  · intro rgx conds value ctx i lbl hnd h
    exact matchConditionAux_findIdx rgx ctx value conds 0 i lbl hnd h

unseal Rat.add Rat.mul Rat.sub Rat.inv Rat.ofScientific in
/-- Witness for C4 (amended): with the distinct-label conditions of
`c2Tree`'s input node, matching 9.5 yields index 0 / label `"Critical"`,
and the label-recomputed routing index is also 0. -/
theorem C4_first_match_and_routing_index_amended_witness :
    findLabelIndex
      [{ label := "Critical", operator := some ConditionOperator.gte, value := .num 9 },
       { label := "Low", operator := some ConditionOperator.lt, value := .num 9 }]
      "Critical" = some 0 :=
  C4_first_match_and_routing_index_amended.2.2 noRegex
    [{ label := "Critical", operator := some ConditionOperator.gte, value := .num 9 },
     { label := "Low", operator := some ConditionOperator.lt, value := .num 9 }]
    (.num (19/2)) { vuln := { main := [] }, lookups := [] } 0 "Critical"
    (by simp) (by rfl)

/-- When every node of the engine is `nodeSafe` for the context, the
traversal loop always returns a result — no exception escapes. -/
theorem evalLoop_ok_of_safe (rgx : RegexFn) (eng : Engine) (ctx : EvalContext)
    (ip : Bool) (vid : Option String)
    (hsafe : ∀ p ∈ eng.nodes, nodeSafe rgx p.2 ctx = true) :
    ∀ (fuel : ℕ) (cur : String) (cin : Option ℤ) (path : List DecisionPath),
      exOk (evalLoop rgx eng ctx ip vid fuel cur cin path) = true := by
  intro fuel
  induction fuel with
  | zero => intro cur cin path; rw [evalLoop]; rfl
  | succ n ih =>
    intro cur cin path
    rw [evalLoop]
    split
    · rfl
    next node hn =>
      have hns := hsafe _ (alGet_mem hn)
      rw [nodeSafe, Bool.and_eq_true] at hns
      split
      · rfl
      next e hexc heq =>
        rw [heq] at hns
        cases e with
        | nodeEval m => exact absurd rfl (hexc m)
        | valueError m => simp [okOrNodeEval, isNodeEvalErr] at hns
        | typeError m => simp [okOrNodeEval, isNodeEvalErr] at hns
        | indexError m => simp [okOrNodeEval, isNodeEvalErr] at hns
      next value condLabel he =>
        dsimp only
        split
        · rfl
        · split
          next e hc =>
            rw [hc] at hns
            simp [exOk] at hns
          next ic hc =>
            split
            · rfl
            · exact ih _ _ _

/-- All-success `mapM` over `Except`. -/
theorem mapM_ok_of_all {α β : Type} (f : α → Except PyErr β) :
    ∀ l : List α, (∀ x ∈ l, exOk (f x) = true) →
      ∃ ys, l.mapM f = .ok ys ∧ ys.length = l.length := by
  intro l
  induction l with
  | nil => intro _; exact ⟨[], rfl, rfl⟩
  | cons a rest ih =>
    intro h
    cases hfa : f a with
    | error e =>
      have := h a (by simp)
      rw [hfa] at this
      simp [exOk] at this
    | ok y =>
      obtain ⟨ys, hys, hlen⟩ := ih (fun x hx => h x (by simp [hx]))
      refine ⟨y :: ys, ?_, by simp [hlen]⟩
      rw [List.mapM_cons, hfa, hys]
      rfl

/-- Chunking then flattening is the identity. -/
theorem chunksOf_flatten {α : Type} (n : ℕ) (l : List α) :
    (chunksOf n l).flatten = l := by
  unfold chunksOf
  generalize hfuel : l.length = fuel
  clear hfuel
  induction fuel generalizing l with
  | zero => cases l <;> simp [chunksAux]
  | succ m ih =>
    cases l with
    | nil => simp [chunksAux]
    | cons a rest =>
      have hstep : chunksAux n (m + 1) (a :: rest) =
          (a :: rest).take n :: chunksAux n m ((a :: rest).drop n) := rfl
      rw [hstep]
      simp [ih, List.take_append_drop]

/-- All-success chunked `mapM`, preserving the flattened length. -/
theorem chunks_mapM_ok {α β : Type} (f : α → Except PyErr β) :
    ∀ (chunks : List (List α)),
      (∀ x ∈ chunks.flatten, exOk (f x) = true) →
      ∃ css, chunks.mapM (fun c => c.mapM f) = .ok css ∧
        css.flatten.length = chunks.flatten.length := by
  intro chunks
  induction chunks with
  | nil => intro _; exact ⟨[], rfl, rfl⟩
  | cons c rest ih =>
    intro h
    obtain ⟨ys, hys, hylen⟩ := mapM_ok_of_all f c (fun x hx => h x (by simp [hx]))
    obtain ⟨css, hcss, hclen⟩ := ih (fun x hx => h x (by simp [hx]))
    refine ⟨ys :: css, ?_, by simp [hylen, hclen]⟩
    rw [List.mapM_cons, hys, hcss]
    rfl

/-- C2 (amended): node-evaluation failures raised as
`NodeEvaluationError` are surfaced as the result's error string with
decision forced to `"Error"` and never escape `evaluate`; when every node
evaluation raises at worst a `NodeEvaluationError` (and `input_count` is
numerically comparable), `evaluate` always returns a result and
`process_batch` completes with one result per record.  (The unamended
claim fails precisely because an ordering operator applied to a
non-numeric value raises `ValueError`, which is not a
`NodeEvaluationError` — see the counterexample.) -/
theorem C2_error_isolation_amended :
    (∀ (rgx : RegexFn) (eng : Engine) (vuln : VulnerabilityInput)
       (lookups : List (String × List (String × List (String × Value)))) (ip : Bool),
      (∀ p ∈ eng.nodes, nodeSafe rgx p.2 { vuln := vuln, lookups := lookups } = true) →
      exOk (engineEvaluate rgx eng vuln lookups ip) = true) ∧
    (∀ (rgx : RegexFn) (eng : Engine) (vuln : VulnerabilityInput)
       (lookups : List (String × List (String × List (String × Value)))) (ip : Bool)
       (root : String) (node : NodeSchema) (m : String),
      eng.rootNodeId = some root → root ≠ "" →
      alGet eng.nodes root = some node →
      evalNode rgx node { vuln := vuln, lookups := lookups } = .error (.nodeEval m) →
      engineEvaluate rgx eng vuln lookups ip =
        .ok { vulnId := if optStrTruthy vuln.id then vuln.id else vuln.cveId,
              decision := "Error", path := [], error := some m }) ∧
    (∀ (rgx : RegexFn) (ts : TreeStructure) (chunkSize : ℕ)
       (vulns : List VulnerabilityInput)
       (lookups : List (String × List (String × List (String × Value)))) (ip : Bool),
      (∀ v ∈ vulns, exOk (engineEvaluate rgx (buildTree ts) v lookups ip) = true) →
      ∃ resp, processBatch rgx ts chunkSize vulns lookups ip = .ok resp ∧
        resp.results.length = vulns.length ∧ resp.total = vulns.length) := by
  refine ⟨?_, ?_, ?_⟩
  · intro rgx eng vuln lookups ip hsafe
    unfold engineEvaluate
    by_cases hr : optStrTruthy eng.rootNodeId
    · rw [if_neg (by simpa using hr)]
      exact evalLoop_ok_of_safe rgx eng _ ip _ hsafe maxIterations _ Option.none []
    · rw [if_pos (by simpa using hr)]
      rfl
  · intro rgx eng vuln lookups ip root node m hroot hroot0 hn he
    unfold engineEvaluate
    rw [if_neg (by simp [hroot, optStrTruthy, hroot0])]
    rw [hroot]
    have h100 : maxIterations = 99 + 1 := rfl
    rw [h100, evalLoop]
    simp only [Option.getD_some, hn, he]
    cases ip <;> rfl
  · intro rgx ts chunkSize vulns lookups ip hall
    have hflat := chunksOf_flatten chunkSize vulns
    obtain ⟨css, hcss, hclen⟩ :=
      chunks_mapM_ok (fun v => engineEvaluate rgx (buildTree ts) v lookups ip)
        (chunksOf chunkSize vulns) (by rw [hflat]; exact hall)
    have hbatch : processBatch rgx ts chunkSize vulns lookups ip = .ok
        { total := css.flatten.length,
          successCount :=
            css.flatten.length - css.flatten.countP (fun r => resultErrorTruthy r),
          errorCount := css.flatten.countP (fun r => resultErrorTruthy r),
          results := css.flatten,
          decisionSummary := css.flatten.foldl
            (fun d r => if resultErrorTruthy r then d else counterIncr d r.decision) [] } := by
      unfold processBatch
      dsimp only
      rw [hcss]
      rfl
    exact ⟨_, hbatch, by simpa [hflat] using hclen, by simpa [hflat] using hclen⟩

/-- Witness for C2 (amended): the safe record `c2GoodRec` evaluates
(decision `Track`), the batch of it alone completes with one result, and
a root-level `NodeEvaluationError` (missing `field` config) becomes an
`"Error"` result. -/
theorem C2_error_isolation_amended_witness :
    exOk (engineEvaluate noRegex (buildTree c2Tree) c2GoodRec [] true) = true ∧
    (∃ resp, processBatch noRegex c2Tree 5000 [c2GoodRec] [] true = .ok resp ∧
      resp.results.length = [c2GoodRec].length ∧ resp.total = [c2GoodRec].length) :=
  ⟨C2_error_isolation_amended.1 noRegex (buildTree c2Tree) c2GoodRec [] true
      (by intro p hp; fin_cases hp <;> rfl),
   C2_error_isolation_amended.2.2 noRegex c2Tree 5000 [c2GoodRec] [] true
      (by intro v hv; simp only [List.mem_singleton] at hv; subst hv; rfl)⟩

/-! ## C8: the CVSS vector decoder -/

/-- `replaceAllAux` is fuel-insensitive once the fuel covers the subject
length: each step consumes at least one character. -/
theorem replaceAllAux_fuel (pat : List Char) :
    ∀ (n m : ℕ) (s : List Char), s.length ≤ n → s.length ≤ m →
      replaceAllAux pat n s = replaceAllAux pat m s := by
  intro n
  induction n with
  | zero =>
    intro m s hn _
    have hs : s = [] := List.length_eq_zero.mp (Nat.le_zero.mp hn)
    subst hs
    cases m <;> rfl
  | succ n ih =>
    intro m s hn hm
    cases s with
    | nil => cases m <;> rfl
    | cons c cs =>
      cases m with
      | zero => simp at hm
      | succ m =>
        have hcs : cs.length ≤ n := by simp [List.length_cons] at hn; omega
        have hcs' : cs.length ≤ m := by simp [List.length_cons] at hm; omega
        show (if pyStartsWith pat (c :: cs) then
                replaceAllAux pat n (List.drop (pat.length - 1) cs)
              else c :: replaceAllAux pat n cs) =
             (if pyStartsWith pat (c :: cs) then
                replaceAllAux pat m (List.drop (pat.length - 1) cs)
              else c :: replaceAllAux pat m cs)
        by_cases hsw : pyStartsWith pat (c :: cs)
        · rw [if_pos hsw, if_pos hsw]
          refine ih m (List.drop (pat.length - 1) cs) ?_ ?_ <;>
            · rw [List.length_drop]; omega
        · rw [if_neg hsw, if_neg hsw]
          exact congrArg (c :: ·) (ih m cs hcs hcs')

/-- Right-stripping a string that starts with a whitespace-free block only
acts on the part after the block. -/
theorem rstripL_pfx_append (q u : List Char)
    (hq : List.dropWhile isSpaceChar q.reverse = q.reverse) :
    rstripL (q ++ u) = q ++ rstripL u := by
  unfold rstripL
  rw [List.reverse_append, List.dropWhile_append]
  by_cases h : (List.dropWhile isSpaceChar u.reverse).isEmpty = true
  · rw [if_pos h, hq, List.reverse_reverse]
    have h0 : List.dropWhile isSpaceChar u.reverse = [] := by
      simpa [List.isEmpty_iff] using h
    rw [h0]
    simp
  · rw [if_neg h, List.reverse_append, List.reverse_reverse]

/-- Uppercasing then stripping a `CVSS:3.0/`-prefixed vector keeps the
prefix intact and right-strips the suffix. -/
theorem strip_upper_pfx30 (u : List Char) :
    stripL (upperL (pfx30 ++ u)) = pfx30 ++ rstripL (upperL u) := by
  have h1 : upperL (pfx30 ++ u) = pfx30 ++ upperL u := by simp [upperL, pfx30]
  have h2 : stripL (pfx30 ++ upperL u) = rstripL (pfx30 ++ upperL u) := rfl
  rw [h1, h2, rstripL_pfx_append _ _ (by decide)]

/-- Uppercasing then stripping a `CVSS:3.1/`-prefixed vector keeps the
prefix intact and right-strips the suffix. -/
theorem strip_upper_pfx31 (u : List Char) :
    stripL (upperL (pfx31 ++ u)) = pfx31 ++ rstripL (upperL u) := by
  have h1 : upperL (pfx31 ++ u) = pfx31 ++ upperL u := by simp [upperL, pfx31]
  have h2 : stripL (pfx31 ++ upperL u) = rstripL (pfx31 ++ upperL u) := rfl
  rw [h1, h2, rstripL_pfx_append _ _ (by decide)]

/-- Uppercasing then stripping a `CVSS:4.0/`-prefixed vector keeps the
prefix intact and right-strips the suffix. -/
theorem strip_upper_pfx40 (u : List Char) :
    stripL (upperL (pfx40 ++ u)) = pfx40 ++ rstripL (upperL u) := by
  have h1 : upperL (pfx40 ++ u) = pfx40 ++ upperL u := by simp [upperL, pfx40]
  have h2 : stripL (pfx40 ++ upperL u) = rstripL (pfx40 ++ upperL u) := rfl
  rw [h1, h2, rstripL_pfx_append _ _ (by decide)]

/-- Every vector starting with the literal `CVSS:3.0/` is detected as
version `"3.1"`. -/
theorem detect_pfx30 (u : List Char) :
    detectCvssVersionL (pfx30 ++ u) = some "3.1" := by
  unfold detectCvssVersionL
  rw [if_neg (by simp [pfx30])]
  dsimp only
  rw [strip_upper_pfx30]
  rfl

/-- Every vector starting with the literal `CVSS:3.1/` is detected as
version `"3.1"`. -/
theorem detect_pfx31 (u : List Char) :
    detectCvssVersionL (pfx31 ++ u) = some "3.1" := by
  unfold detectCvssVersionL
  rw [if_neg (by simp [pfx31])]
  dsimp only
  rw [strip_upper_pfx31]
  rfl

/-- Every vector starting with the literal `CVSS:4.0/` is detected as
version `"4.0"`. -/
theorem detect_pfx40 (u : List Char) :
    detectCvssVersionL (pfx40 ++ u) = some "4.0" := by
  unfold detectCvssVersionL
  rw [if_neg (by simp [pfx40])]
  dsimp only
  rw [strip_upper_pfx40]
  rfl

/-- Removing `CVSS:3.1/` from a `CVSS:3.0/`-prefixed string leaves the
prefix in place: no occurrence can start inside it. -/
theorem replaceAll_31_over_30 (w : List Char) :
    replaceAllL "CVSS:3.1/".data (pfx30 ++ w) =
      pfx30 ++ replaceAllL "CVSS:3.1/".data w := rfl

/-- Removing `CVSS:3.1/` from a `CVSS:3.1/`-prefixed string removes the
prefix and continues on the rest. -/
theorem replaceAll_31_self (w : List Char) :
    replaceAllL "CVSS:3.1/".data (pfx31 ++ w) = replaceAllL "CVSS:3.1/".data w := by
  have h : replaceAllL "CVSS:3.1/".data (pfx31 ++ w) =
      replaceAllAux "CVSS:3.1/".data (w.length + 8) w := rfl
  rw [h]
  exact replaceAllAux_fuel _ (w.length + 8) w.length w (by omega) (le_refl _)

/-- Removing `CVSS:3.0/` from a `CVSS:3.0/`-prefixed string removes the
prefix and continues on the rest. -/
theorem replaceAll_30_self (w : List Char) :
    replaceAllL "CVSS:3.0/".data (pfx30 ++ w) = replaceAllL "CVSS:3.0/".data w := by
  have h : replaceAllL "CVSS:3.0/".data (pfx30 ++ w) =
      replaceAllAux "CVSS:3.0/".data (w.length + 8) w := rfl
  rw [h]
  exact replaceAllAux_fuel _ (w.length + 8) w.length w (by omega) (le_refl _)

/-- A `CVSS:3.0/` vector decodes exactly as the same vector with a
`CVSS:3.1/` prefix: both prefixes are stripped by the two replacements and
both dispatch to the 3.1 metric table. -/
theorem parseL_30_31 (u : List Char) :
    parseCvssVectorL (pfx30 ++ u) = parseCvssVectorL (pfx31 ++ u) := by
  unfold parseCvssVectorL
  rw [detect_pfx30, detect_pfx31]
  dsimp only
  rw [strip_upper_pfx30, strip_upper_pfx31]
  simp only [if_neg (show ¬ ("3.1" : String) = "4.0" by decide)]
  rw [replaceAll_31_over_30, replaceAll_30_self, replaceAll_31_self]

/-- A key of `alInsert d k v` is `k` or a key of `d`. -/
theorem alInsert_keys {α : Type} :
    ∀ (d : List (String × α)) (k : String) (v : α) (q : String),
      q ∈ (alInsert d k v).map Prod.fst → q = k ∨ q ∈ d.map Prod.fst := by
  intro d
  induction d with
  | nil =>
    intro k v q h
    simp [alInsert] at h
    exact Or.inl h
  | cons p rest ih =>
    intro k v q h
    obtain ⟨k0, v0⟩ := p
    by_cases he : (k0 == k) = true
    · rw [show alInsert ((k0, v0) :: rest) k v = (k0, v) :: rest from by
          simp [alInsert, he]] at h
      simp at h
      rcases h with h | h
      · right; simp [h]
      · right; simp [h]
    · rw [show alInsert ((k0, v0) :: rest) k v = (k0, v0) :: alInsert rest k v from by
          simp [alInsert, he]] at h
      simp at h
      rcases h with h | h
      · right; simp [h]
      · rcases ih k v q (by simpa using h) with h' | h'
        · exact Or.inl h'
        · right; simp [h']

/-- Every key the decoding fold adds comes from the metric table in use:
a part either contributes no entry or an entry keyed by the derived field
name of one of the table rows. -/
theorem parse_fold_keys (metricsMap : List CvssMetric) :
    ∀ (parts : List (List Char)) (acc : List (String × String)) (k : String),
      k ∈ (parts.foldl
        (fun result part =>
          match splitFirstColon part with
          | Option.none => result
          | some (a, v) =>
            let ab := String.mk (stripL a)
            let value := String.mk (stripL v)
            match metricLookup metricsMap ab with
            | Option.none => result
            | some metric =>
              let readable :=
                match alGet metric.valueMap value with
                | some rv => rv
                | Option.none => value
              alInsert result metric.fieldName readable)
        acc).map Prod.fst →
      k ∈ acc.map Prod.fst ∨ ∃ m ∈ metricsMap, m.fieldName = k := by
  intro parts
  induction parts with
  | nil => intro acc k h; exact Or.inl h
  | cons p ps ih =>
    intro acc k h
    rw [List.foldl_cons] at h
    rcases ih _ k h with hacc | hm
    · rcases hsp : splitFirstColon p with _ | ⟨a, v⟩
      · simp only [hsp] at hacc
        exact Or.inl hacc
      · simp only [hsp] at hacc
        rcases hml : metricLookup metricsMap (String.mk (stripL a)) with _ | metric
        · simp only [hml] at hacc
          exact Or.inl hacc
        · simp only [hml] at hacc
          rcases alInsert_keys acc metric.fieldName _ k hacc with hk | hk
          · refine Or.inr ⟨metric, ?_, hk.symm⟩
            unfold metricLookup at hml
            exact List.mem_of_find?_eq_some hml
          · exact Or.inl hk
    · exact Or.inr hm

/-- Every key of a decoded vector is a derived CVSS field name. -/
theorem parseL_keys (u : List Char) (k : String)
    (h : k ∈ (parseCvssVectorL u).map Prod.fst) : k ∈ allCvssFields := by
  unfold parseCvssVectorL at h
  rcases hd : detectCvssVersionL u with _ | ver
  · rw [hd] at h; simp at h
  · rw [hd] at h
    dsimp only at h
    by_cases h40 : ver = "4.0"
    · simp only [if_pos h40] at h
      rcases parse_fold_keys cvss40Metrics _ [] k h with h' | h'
      · simp at h'
      · rcases h' with ⟨m, hm, hf⟩
        unfold allCvssFields
        exact List.mem_append_right _ (List.mem_map.mpr ⟨m, hm, hf⟩)
    · simp only [if_neg h40] at h
      rcases parse_fold_keys cvss31Metrics _ [] k h with h' | h'
      · simp at h'
      · rcases h' with ⟨m, hm, hf⟩
        unfold allCvssFields
        exact List.mem_append_left _ (List.mem_map.mpr ⟨m, hm, hf⟩)

/-- C8: `parse_cvss_vector` detects the version by literal prefix
(`CVSS:4.0/` maps to 4.0, `CVSS:3.1/` and `CVSS:3.0/` both map to 3.1);
whenever version detection fails -- in particular on an unrecognized or
empty prefix -- the decoder returns the empty map (it never raises: the
decoder is a total function); a `CVSS:3.0/` vector decodes identically to
the same vector with a `CVSS:3.1/` prefix; every key of the output is a
derived CVSS field name; unknown metric abbreviations are silently ignored
and unknown codes of known metrics pass through verbatim, as the concrete
vector `CVSS:3.1/AV:Z/XX:N` shows; and matching is case-insensitive and
whitespace-tolerant. -/
theorem C8_cvss_decoder :
    (∀ v : String, detectCvssVersion v = Option.none → parseCvssVector v = []) ∧
    (∀ rest : String,
        detectCvssVersion ("CVSS:3.0/" ++ rest) = some "3.1" ∧
        detectCvssVersion ("CVSS:3.1/" ++ rest) = some "3.1" ∧
        detectCvssVersion ("CVSS:4.0/" ++ rest) = some "4.0") ∧
    (∀ rest : String,
        parseCvssVector ("CVSS:3.0/" ++ rest) = parseCvssVector ("CVSS:3.1/" ++ rest)) ∧
    (∀ (v : String) (k : String),
        k ∈ (parseCvssVector v).map Prod.fst → k ∈ allCvssFields) ∧
    parseCvssVector "CVSS:3.1/AV:Z/XX:N" = [("cvss_av", "Z")] ∧
    parseCvssVector "cvss:3.1/ av : n " = [("cvss_av", "Network")] ∧
    parseCvssVector "nonsense" = [] := by
  refine ⟨?_, ?_, ?_, ?_, rfl, rfl, rfl⟩
  · intro v h
    unfold detectCvssVersion at h
    unfold parseCvssVector parseCvssVectorL
    rw [h]
  · intro rest
    have e30 : ("CVSS:3.0/" ++ rest).data = pfx30 ++ rest.data := rfl
    have e31 : ("CVSS:3.1/" ++ rest).data = pfx31 ++ rest.data := rfl
    have e40 : ("CVSS:4.0/" ++ rest).data = pfx40 ++ rest.data := rfl
    refine ⟨?_, ?_, ?_⟩ <;> unfold detectCvssVersion
    · rw [e30]; exact detect_pfx30 _
    · rw [e31]; exact detect_pfx31 _
    · rw [e40]; exact detect_pfx40 _
  · intro rest
    have e30 : ("CVSS:3.0/" ++ rest).data = pfx30 ++ rest.data := rfl
    have e31 : ("CVSS:3.1/" ++ rest).data = pfx31 ++ rest.data := rfl
    unfold parseCvssVector
    rw [e30, e31]
    exact parseL_30_31 rest.data
  · intro v k h
    exact parseL_keys v.data k h

/-- C8, witnessed at a concrete input: the string `"hello"` has no CVSS
prefix, so version detection fails and the decoder returns the empty map. -/
theorem C8_cvss_decoder_witness :
    detectCvssVersion "hello" = Option.none ∧ parseCvssVector "hello" = [] :=
  ⟨rfl, C8_cvss_decoder.1 "hello" rfl⟩


end TreeVuln
